import Mathlib

/-!
# Verification of the xtatic-session-planner against its specification

This file is a shallow embedding of `src/xtatic-session-planner/src/App.jsx`
(a single-page React application) together with proofs about it.

Modelling conventions, chosen to stay faithful to the JavaScript source:

* JS strings are Lean `String`s; absent/`null` string-ish fields are `Option String`.
* JS numbers that the data model declares as integers (`totalSessions`,
  `numStudents`, `excitedCount`, session numbers) are `Nat`; `sessionLengthHours`
  (a possibly fractional number entered with step 0.25) is a decimal number
  `JNum` (mantissa over a power of ten), read as a rational where arithmetic
  happens.  All the arithmetic in the source (one division, comparisons with
  0.5 and `Math.round`) is exact on these values, so `Rat` arithmetic agrees
  with IEEE doubles here.
* `x || y` on strings is `if x = "" then y else x`; on numbers the source only
  uses it as a zero guard, modelled by an explicit `if _ = 0`.
* `Math.round x` is `⌊x + 1/2⌋` (JS rounds halves towards +∞).
* React state: every event handler closes over the state of the render in
  which it was created (`runs`, `profile`, `feedback` are `const` snapshots),
  while `setRuns (prev => ...)` queues a functional update that is applied to
  the *latest* state.  `submitFeedbackAndGenerate` first queues the feedback
  attachment and then calls `generateNextPlan()` synchronously: that call
  still *reads* the stale snapshot (`runs.find(...)`, `run?.sessions.at(-1)`),
  but its own queued append applies after the feedback update.  The model
  below reproduces exactly this: reads from the snapshot, updates composed
  in queue order.
* `new Date().toISOString()` is an opaque timestamp parameter threaded in.
-/

/-- JS JSDoc `StudentDetail`: all fields free text, `""` when left empty
(`emptyStudent` initialises every field to `""`). -/
structure StudentDetail where
  name : String
  age : String
  gender : String
  interest : String
  passion : String
  energy : String
  notes : String
deriving DecidableEq

/-- A JSON/JS decimal number: the value `m / 10 ^ e`.  `JSON.stringify` prints
it as a (signed) decimal with `e` fractional digits; this also models the
numbers a user can type into the numeric inputs (step 0.25 and integers). -/
structure JNum where
  m : Int
  e : Nat
deriving DecidableEq

/-- The rational value denoted by a `JNum`. -/
def JNum.toRat (n : JNum) : ℚ := (n.m : ℚ) / (10 : ℚ) ^ n.e

/-- Embed a natural number as a `JNum` (integer, no fractional digits). -/
def jnumOfNat (n : Nat) : JNum := ⟨(n : Int), 0⟩

/-- JSDoc `ClassProfile` from App.jsx line 14. -/
structure ClassProfile where
  subject : String
  expectation : String
  totalSessions : Nat
  sessionLengthHours : JNum
  numStudents : Nat
  ageRange : String
  students : List StudentDetail
deriving DecidableEq

/-- JSDoc `SessionFeedback` from App.jsx line 15: `excitedCount : number|null`,
`digestible : "yes"|"some"|"no"|null`. -/
structure SessionFeedback where
  excitedCount : Option Nat
  digestible : Option String
  otherInterests : String
  notGoodEnough : String
deriving DecidableEq

/-- JSDoc `SessionRecord` from App.jsx line 16; `feedback` is an optional
property (absent until attached). -/
structure SessionRecord where
  sessionNumber : Nat
  generatedAt : String
  planMd : String
  feedback : Option SessionFeedback
deriving DecidableEq

/-- JSDoc `ClassRun` from App.jsx line 17 (`profile` optional). -/
structure ClassRun where
  id : String
  profile : Option ClassProfile
  sessions : List SessionRecord
deriving DecidableEq

/-- `emptyStudent()` (App.jsx line 25). -/
def emptyStudent : StudentDetail :=
  { name := "", age := "", gender := "", interest := "", passion := "", energy := "", notes := "" }

/-- `newEmptyProfile()` (App.jsx line 24). -/
def newEmptyProfile : ClassProfile :=
  { subject := "", expectation := "", totalSessions := 8, sessionLengthHours := ⟨1, 0⟩,
    numStudents := 8, ageRange := "10–13", students := [emptyStudent] }

/-- `defaultFeedback()` (App.jsx line 26). -/
def defaultFeedback : SessionFeedback :=
  { excitedCount := none, digestible := none, otherInterests := "", notGoodEnough := "" }

/-- `markdownEscape` (App.jsx line 28): `replaceAll("<","&lt;").replaceAll(">","&gt;")`. -/
def markdownEscape (s : String) : String :=
  (s.replace "<" "&lt;").replace ">" "&gt;"

/-- JS `a || b` for strings (`""` is falsy). -/
def jsOrStr (a b : String) : String := if a = "" then b else a

/-- The record returned by `deriveSignals` (App.jsx lines 31–42). -/
structure Signals where
  needsMoreEngagement : Bool
  needsMoreScaffold : Bool
  sessionTheme : String
  mentionInterests : String
  levelNote : String
deriving DecidableEq

/-- `deriveSignals(profile, feedback, sessionNumber)` (App.jsx lines 31–42).

* `groupSize = profile?.numStudents || 0` — `numStudents` is a `Nat` here, so
  the `|| 0` guard is the identity;
* `excitement = (feedback?.excitedCount ?? 0) / Math.max(1, groupSize)`;
* `digest = feedback?.digestible || null` (the empty string is falsy). -/
def deriveSignals (profile : ClassProfile) (feedback : Option SessionFeedback)
    (sessionNumber : Nat) : Signals :=
  let groupSize := profile.numStudents
  let excitement : ℚ := (((feedback.bind (fun f => f.excitedCount)).getD 0 : Nat) : ℚ) /
    ((max 1 groupSize : Nat) : ℚ)
  let digest : Option String :=
    match feedback.bind (fun f => f.digestible) with
    | some s => if s = "" then none else some s
    | none => none
  { needsMoreEngagement := decide (excitement < 1/2),
    needsMoreScaffold := decide (digest = some "no") || decide (digest = some "some"),
    sessionTheme := jsOrStr profile.subject "General Learning",
    mentionInterests :=
      (jsOrStr (match feedback with | some f => f.otherInterests | none => "")
        (String.intercalate ", "
          ((profile.students.map (fun s => s.interest)).filter (fun s => s != "")))).take 200,
    levelNote := "Ages " ++ jsOrStr profile.ageRange "—" ++ " | " ++ toString groupSize ++
      " students | Session " ++ toString sessionNumber }

/-- JS `Math.round`: round half towards +∞. -/
def jsRound (q : ℚ) : Int := ⌊q + 1/2⌋

/-- The `block(title, items)` helper of `makePlanMarkdown` (App.jsx line 47). -/
def mdBlock (title : String) (items : List String) : String :=
  "### " ++ title ++ "\n" ++ String.intercalate "\n" (items.map (fun i => "- " ++ i)) ++ "\n\n"

/-- The five agenda minute counts of the `timing` array (App.jsx lines 85–91):
`Math.round(len*10)`, three times `Math.round(len*15)`, `Math.round(len*5)`. -/
def timingMinutes (len : ℚ) : List Int :=
  [jsRound (len * 10), jsRound (len * 15), jsRound (len * 15), jsRound (len * 15),
    jsRound (len * 5)]

/-- The labels of the five agenda lines, in source order. -/
def timingLabels : List String :=
  ["Warm-up & Engagement", "Mini-Lesson", "Guided Practice", "Project/Application",
    "Share & Reflect"]

/-- The `timing` array of `makePlanMarkdown` (App.jsx lines 85–91): each entry is
`` `${label} — ${Math.round(len*k)} min` ``. -/
def timingLines (len : ℚ) : List String :=
  List.zipWith (fun t m => t ++ " — " ++ toString m ++ " min") timingLabels (timingMinutes len)

/-- The header of `makePlanMarkdown` (App.jsx lines 93–95). -/
def planHeaderStr (profile : ClassProfile) (feedback : Option SessionFeedback)
    (sessionNumber : Nat) : String :=
  let s := deriveSignals profile feedback sessionNumber
  "# Session " ++ toString sessionNumber ++ ": " ++ markdownEscape profile.subject ++ "\n" ++
  "**" ++ s.levelNote ++ "**\n\n" ++
  "**Session Objective:** Build toward " ++
  markdownEscape (jsOrStr profile.expectation "the class goals") ++
  " using age-appropriate, high-engagement activities.\n\n"

/-- The six section blocks of `makePlanMarkdown` that follow the agenda block
(App.jsx lines 49–83 and 100–105), in source order. -/
def planSectionsStr (profile : ClassProfile) (feedback : Option SessionFeedback)
    (sessionNumber : Nat) : String :=
  let s := deriveSignals profile feedback sessionNumber
  let warmup : List String :=
    if s.needsMoreEngagement then
      ["Energy check-in: fist-to-five excitement poll",
       "2–3 min icebreaker tied to interests",
       "Movement mini-game or quick quiz"]
    else
      ["Quick recap from last session",
       "Pair share: goal for today"]
  let teach : List String :=
    if s.needsMoreScaffold then
      ["Micro-lesson: " ++ s.sessionTheme ++ " (5–7 min, concrete examples)",
       "Guided demo with think-aloud; provide starter template",
       "Check for understanding: thumbs + 2 diagnostic questions"]
    else
      ["Concept spotlight: " ++ s.sessionTheme ++ " (interactive)",
       "Student discovery task in pairs; teacher circulates"]
  let practice : List String :=
    ["Team task: small groups tackle a bite-sized challenge",
     (if s.needsMoreScaffold then "Provide scaffolded steps & exemplars"
      else "Allow open-ended approaches; encourage creativity"),
     "Midpoint pause: share strategies; highlight good moves"]
  let applyCreate : List String :=
    ["Independent or pair build: mini-project applying today’s concept",
     (if s.needsMoreEngagement then "Gamify with milestones/badges"
      else "Stretch goal for early finishers")]
  let reflectClose : List String :=
    ["2-minute exit ticket: one learning, one question, one improvement",
     "Student self-rating on confidence (1–5); teacher notes pacing"]
  let homework : List String :=
    ["Optional: short practice or reflection journal (photo/upload ok)",
     "Bring one real-world example or question next session"]
  mdBlock "Warm-up & Engagement" warmup ++
  mdBlock "Teach (Mini-Lesson)" teach ++
  mdBlock "Guided Practice" practice ++
  mdBlock "Apply & Create" applyCreate ++
  mdBlock "Reflect & Close" reflectClose ++
  mdBlock "Optional Extension / Home Connection" homework

/-- `makePlanMarkdown(profile, feedback, sessionNumber)` (App.jsx lines 44–107):
the header, the agenda block with `len = profile.sessionLengthHours || 1`,
then the six adaptive/static section blocks (the source builds this as one
string concatenation; it is split into the two named pieces above purely so
that the agenda block can be addressed in theorems). -/
def makePlanMarkdown (profile : ClassProfile) (feedback : Option SessionFeedback)
    (sessionNumber : Nat) : String :=
  let len : ℚ :=
    if profile.sessionLengthHours.toRat = 0 then 1 else profile.sessionLengthHours.toRat
  planHeaderStr profile feedback sessionNumber ++
  mdBlock "Agenda (Suggested Timing)" (timingLines len) ++
  planSectionsStr profile feedback sessionNumber

/-- The component state of `App` that the claims concern: the `runs` list, the
active run id, and the `profile` / `feedback` form state (App.jsx lines 213–218). -/
structure AppState where
  runs : List ClassRun
  activeId : String
  profile : ClassProfile
  feedback : SessionFeedback
deriving DecidableEq

/-- `runs.find(r => r.id === activeId)` (used at App.jsx lines 236, 246). -/
def findRun (runs : List ClassRun) (activeId : String) : Option ClassRun :=
  runs.find? (fun r => r.id == activeId)

/-- `makePlan(profile, lastFeedback, nextIndex)` (App.jsx lines 230–233);
`now` stands for `new Date().toISOString()`. -/
def makePlan (profile : ClassProfile) (lastFeedback : Option SessionFeedback)
    (nextIndex : Nat) (now : String) : SessionRecord :=
  { sessionNumber := nextIndex, generatedAt := now,
    planMd := makePlanMarkdown profile lastFeedback nextIndex, feedback := none }

/-- Alert text at App.jsx line 238. -/
def subjectAlert : String := "Please enter the subject of your class."

/-- Alert text at App.jsx line 240. -/
def totalAlert : String := "All sessions have been generated. Adjust total sessions in the profile."

/-- Alert text at App.jsx line 247. -/
def noSessionAlert : String := "Please generate at least one session plan first."

/-- The read-only part of `generateNextPlan` (App.jsx lines 235–243): from the
render snapshot of `runs` (and the form `profile`), either refuse with an alert
or produce the record to append.  `pf = run?.profile || profile`;
`nextIndex = (run?.sessions?.length || 0) + 1`; guard `nextIndex > (pf.totalSessions || 1)`;
the adapted-to feedback is `run?.sessions.at(-1)?.feedback` — all reads on the snapshot. -/
def generateNextPlanCore (runs : List ClassRun) (activeId : String)
    (profileState : ClassProfile) (now : String) : Option SessionRecord × List String :=
  let run? := findRun runs activeId
  let pf := (run?.bind (fun r => r.profile)).getD profileState
  if pf.subject = "" then (none, [subjectAlert])
  else
    let nextIndex := (run?.map (fun r => r.sessions.length)).getD 0 + 1
    if nextIndex > (if pf.totalSessions = 0 then 1 else pf.totalSessions) then
      (none, [totalAlert])
    else
      (some (makePlan pf (run?.bind (fun r => r.sessions.getLast?.bind (fun s => s.feedback)))
        nextIndex now), [])

/-- The queued functional update of `generateNextPlan` (App.jsx line 242):
`prev.map(r => r.id === activeId ? { ...r, sessions: [...(r.sessions||[]), rec] } : r)`. -/
def appendToActive (runs : List ClassRun) (activeId : String) (sr : SessionRecord) :
    List ClassRun :=
  runs.map (fun r => if r.id == activeId then { r with sessions := r.sessions ++ [sr] } else r)

/-- `generateNextPlan` as invoked directly by the "Generate Next Session Plan"
button: reads and update base coincide.  Returns the new state and the list of
`alert(...)` messages shown. -/
def generateNextPlan (st : AppState) (now : String) : AppState × List String :=
  match generateNextPlanCore st.runs st.activeId st.profile now with
  | (none, alerts) => (st, alerts)
  | (some sr, alerts) => ({ st with runs := appendToActive st.runs st.activeId sr }, alerts)

/-- JS `Array.prototype.map((x, i) => ...)` with the element index. -/
def jsMapIdxGo (f : Nat → α → β) : Nat → List α → List β
  | _, [] => []
  | i, x :: xs => f i x :: jsMapIdxGo f (i + 1) xs

/-- JS `l.map((x, i) => f(i, x))`. -/
def jsMapIdx (f : Nat → α → β) (l : List α) : List β := jsMapIdxGo f 0 l

/-- `run.sessions.map((s, i) => i === lastIdx ? { ...s, feedback } : s)` with
`lastIdx = run.sessions.length - 1` (App.jsx lines 248–249). -/
def attachFeedbackLast (sessions : List SessionRecord) (fb : SessionFeedback) :
    List SessionRecord :=
  jsMapIdx (fun i s => if i = sessions.length - 1 then { s with feedback := some fb } else s)
    sessions

/-- `submitFeedbackAndGenerate` (App.jsx lines 245–254).  Crucially, the inner
`generateNextPlan()` call closes over the same render snapshot: its reads
(`runs.find`, `run?.sessions.at(-1)?.feedback`, the session count) use `st.runs`
as it was *before* the feedback attachment, while its queued append applies on
top of the attachment (both `setRuns` calls use functional updaters). -/
def submitFeedbackAndGenerate (st : AppState) (now : String) : AppState × List String :=
  match findRun st.runs st.activeId with
  | none => (st, [noSessionAlert])
  | some run =>
    if run.sessions.length = 0 then (st, [noSessionAlert])
    else
      let updatedRun := { run with sessions := attachFeedbackLast run.sessions st.feedback }
      let runs1 := st.runs.map (fun r => if r.id == st.activeId then updatedRun else r)
      match generateNextPlanCore st.runs st.activeId st.profile now with
      | (none, alerts) => ({ st with runs := runs1, feedback := defaultFeedback }, alerts)
      | (some sr, alerts) =>
        ({ st with runs := appendToActive runs1 st.activeId sr, feedback := defaultFeedback },
          alerts)

/-- The user interactions that can change `AppState` after mount:
profile form edits, feedback form edits, selecting a run card, "Save Profile",
"Generate Next Session Plan", "Save Feedback → Generate Next Plan",
"New Class" (with the fresh `crypto.randomUUID()` as parameter), and
"Delete" (with the confirm dialog accepted). -/
inductive Op where
  | editProfile (p : ClassProfile)
  | editFeedback (fb : SessionFeedback)
  | selectRun (id : String)
  | saveProfile
  | generatePlan (now : String)
  | submitFeedback (now : String)
  | newClassRun (id : String)
  | deleteRun (id : String)

/-- One user interaction (App.jsx lines 228, 235–243, 245–254, 258–272,
290, 303–357).  Alerts are dropped; only the state transition is kept. -/
def step (st : AppState) : Op → AppState
  | .editProfile p => { st with profile := p }
  | .editFeedback fb => { st with feedback := fb }
  | .selectRun id =>
    match findRun st.runs id with
    | some r => { st with activeId := id, profile := r.profile.getD newEmptyProfile }
    | none => st
  | .saveProfile =>
    { st with runs := st.runs.map (fun r =>
        if r.id == st.activeId then { r with profile := some st.profile } else r) }
  | .generatePlan now => (generateNextPlan st now).1
  | .submitFeedback now => (submitFeedbackAndGenerate st now).1
  | .newClassRun id =>
    { runs := { id := id, profile := some newEmptyProfile, sessions := [] } :: st.runs,
      activeId := id, profile := newEmptyProfile, feedback := defaultFeedback }
  | .deleteRun id =>
    let next := st.runs.filter (fun r => !(r.id == id))
    if id == st.activeId then
      match next.head? with
      | some r0 =>
        { st with runs := next, activeId := r0.id, profile := r0.profile.getD newEmptyProfile }
      | none => { st with runs := next }
    else { st with runs := next }

/-- A sequence of user interactions. -/
def steps (st : AppState) (ops : List Op) : AppState := ops.foldl step st

/-- The ids of the runs in the store. -/
def runIds (runs : List ClassRun) : List String := runs.map (fun r => r.id)

/-- The freshness condition one operation must satisfy with respect to the set
`base` of ids seen so far: a "New Class" id is new, everything else is free. -/
def opFresh (base : List String) : Op → Prop
  | .newClassRun id => id ∉ base
  | _ => True

/-- The ids seen after one more operation. -/
def opBase (base : List String) : Op → List String
  | .newClassRun id => id :: base
  | _ => base

/-- Freshness of the `crypto.randomUUID()` values along a trace: every id passed
to "New Class" is new — never an id of an existing run nor one seen before. -/
def FreshOps : List String → List Op → Prop
  | _, [] => True
  | base, op :: ops => opFresh base op ∧ FreshOps (opBase base op) ops

/-- The creation-time fields of a `SessionRecord` (everything except `feedback`). -/
def coreOf (s : SessionRecord) : Nat × String × String := (s.sessionNumber, s.generatedAt, s.planMd)

/-- `new` extends `old`: every record present in `old` is still present at the
same index in `new` with the same `sessionNumber`, `generatedAt` and `planMd`. -/
def sessionsPreserved (old new : List SessionRecord) : Prop :=
  old.length ≤ new.length ∧ (new.take old.length).map coreOf = old.map coreOf

/-- The minute values of the agenda before rounding: the fixed 10/15/15/15/5
minutes-per-hour proportions scaled by the session length. -/
def preMinutes (len : ℚ) : List ℚ := [len * 10, len * 15, len * 15, len * 15, len * 5]

/-! ### Concrete scenarios used by counterexamples and witnesses -/

/-- The profile of the end-to-end example of spec §8:
`{subject:"Robotics", totalSessions:2, numStudents:4}` (remaining fields as
created by "New Class"). -/
def pfRobotics : ClassProfile :=
  { newEmptyProfile with subject := "Robotics", totalSessions := 2, numStudents := 4 }

/-- The feedback of the end-to-end example: `{excitedCount:1, digestible:"no"}`. -/
def fbRobotics : SessionFeedback :=
  { excitedCount := some 1, digestible := some "no", otherInterests := "", notGoodEnough := "" }

/-- App state holding one Robotics run with no sessions yet. -/
def stRobotics : AppState :=
  { runs := [{ id := "r1", profile := some pfRobotics, sessions := [] }],
    activeId := "r1", profile := pfRobotics, feedback := defaultFeedback }

/-- The end-to-end example state after: generate plan 1, type in the feedback,
press "Save Feedback → Generate Next Plan". -/
def stRoboticsFinal : AppState :=
  (submitFeedbackAndGenerate (step (generateNextPlan stRobotics "t1").1
    (Op.editFeedback fbRobotics)) "t2").1

/-- A profile whose `totalSessions` is the non-negative integer `0`. -/
def pfZeroTotal : ClassProfile := { newEmptyProfile with subject := "Math", totalSessions := 0 }

/-- App state holding one run with `totalSessions = 0` and no sessions. -/
def stZeroTotal : AppState :=
  { runs := [{ id := "r1", profile := some pfZeroTotal, sessions := [] }],
    activeId := "r1", profile := pfZeroTotal, feedback := defaultFeedback }

/-- A profile with `numStudents = 0`. -/
def pfNoStudents : ClassProfile := { newEmptyProfile with subject := "Math", numStudents := 0 }

/-- A profile with `totalSessions = 1`. -/
def pfOneTotal : ClassProfile := { newEmptyProfile with subject := "Math", totalSessions := 1 }

/-- App state holding one run with `totalSessions = 1` and no sessions. -/
def stOne : AppState :=
  { runs := [{ id := "r1", profile := some pfOneTotal, sessions := [] }],
    activeId := "r1", profile := pfOneTotal, feedback := defaultFeedback }

/-- A second, different feedback record. -/
def fbSecond : SessionFeedback :=
  { excitedCount := some 7, digestible := some "yes", otherInterests := "", notGoodEnough := "" }

/-- `stOne` after: generate plan 1, type feedback `fbRobotics`, submit it
(the follow-up generation is refused since `totalSessions = 1`). -/
def stOverwriteMid : AppState :=
  steps stOne [Op.generatePlan "t1", Op.editFeedback fbRobotics, Op.submitFeedback "t2"]

/-- `stOverwriteMid` after typing feedback `fbSecond` and submitting again. -/
def stOverwriteEnd : AppState :=
  steps stOverwriteMid [Op.editFeedback fbSecond, Op.submitFeedback "t3"]

/-- A run already holding a generated session record. -/
def sampleRecord : SessionRecord :=
  { sessionNumber := 1, generatedAt := "t0", planMd := "plan", feedback := none }

/-- App state holding one run with `totalSessions = 1` and one session already
generated (`sessions.length == totalSessions`). -/
def stFullOne : AppState :=
  { runs := [{ id := "r1", profile := some pfOneTotal, sessions := [sampleRecord] }],
    activeId := "r1", profile := pfOneTotal, feedback := defaultFeedback }

/-- App state holding one run whose profile has an empty subject. -/
def stEmptySubject : AppState :=
  { runs := [{ id := "r1", profile := some newEmptyProfile, sessions := [] }],
    activeId := "r1", profile := newEmptyProfile, feedback := defaultFeedback }

/-! ### The persistence layer: a model of `JSON.stringify` / `JSON.parse`

`loadRuns`/`saveRuns` (App.jsx lines 21–22) delegate to the platform's JSON
serializer over one localStorage key.  The model below implements the JSON
grammar over a `Json` tree: `stringifyVal` follows the `JSON.stringify`
algorithm (no whitespace, strings escaped, numbers printed as signed
decimals), and `parseVal` is a fuel-indexed recursive-descent reader of the
JSON grammar (whitespace-tolerant, full-input, escape-decoding).  Two
deliberate simplifications of `JSON.parse`: exponent number syntax (`1e3`)
and the leading-zero/lone-control-character rejections are not modelled —
neither affects any value `stringifyVal` can produce. -/

/-- A JSON value as produced by `JSON.parse`.  Numbers are decimal (`JNum`),
matching both what the form inputs produce and what `JSON.stringify` prints. -/
inductive Json where
  | null
  | bool (b : Bool)
  | num (n : JNum)
  | str (s : String)
  | arr (elems : List Json)
  | obj (members : List (String × Json))

/-- JS truthiness of a JSON value (`null`, `false`, `0`, `""` are falsy;
arrays and objects — even empty — are truthy), as used by the
`JSON.parse(...) || []` fallback in `loadRuns`. -/
def jsTruthy : Json → Bool
  | Json.null => false
  | Json.bool b => b
  | Json.num n => !(n.m == 0)
  | Json.str s => !(s == "")
  | Json.arr _ => true
  | Json.obj _ => true

/-- The decimal digit characters. -/
def digitChar : Nat → Char
  | 0 => '0' | 1 => '1' | 2 => '2' | 3 => '3' | 4 => '4'
  | 5 => '5' | 6 => '6' | 7 => '7' | 8 => '8' | 9 => '9'
  | _ => '0'

/-- The hexadecimal digit characters (lower case, as `JSON.stringify` emits). -/
def hexDigit (n : Nat) : Char :=
  if n < 10 then digitChar n
  else if n = 10 then 'a' else if n = 11 then 'b' else if n = 12 then 'c'
  else if n = 13 then 'd' else if n = 14 then 'e' else 'f'

/-- Reading one hexadecimal digit. -/
def fromHexDigit (c : Char) : Option Nat :=
  if '0' ≤ c ∧ c ≤ '9' then some (c.toNat - 48)
  else if 'a' ≤ c ∧ c ≤ 'f' then some (c.toNat - 87)
  else if 'A' ≤ c ∧ c ≤ 'F' then some (c.toNat - 55)
  else none

/-- The numeric value of a big-endian list of decimal digit characters. -/
def charsVal (cs : List Char) : Nat :=
  cs.foldl (fun a c => 10 * a + (c.toNat - 48)) 0

/-- The decimal digit characters of a natural number, most significant first
(`"0"` for zero). -/
def natToChars (n : Nat) : List Char :=
  if n = 0 then ['0'] else ((Nat.digits 10 n).map digitChar).reverse

/-- Apply a sign flag to a magnitude. -/
def intOfSign (neg : Bool) (n : Nat) : Int :=
  if neg then -(n : Int) else (n : Int)

/-- The unsigned decimal digits of `n / 10 ^ e`: the digits of `n` with a
decimal point leaving `e` fractional digits (zero-padded on the left when
needed, e.g. `"0.25"`). -/
def numBody (n e : Nat) : List Char :=
  let ds := natToChars n
  if e = 0 then ds
  else if ds.length ≤ e then
    '0' :: '.' :: (List.replicate (e - ds.length) '0' ++ ds)
  else ds.take (ds.length - e) ++ '.' :: ds.drop (ds.length - e)

/-- The characters `JSON.stringify` prints for the number `m / 10 ^ e`:
optional minus sign, then the unsigned decimal body. -/
def numToChars (jn : JNum) : List Char :=
  if jn.m < 0 then '-' :: numBody jn.m.natAbs jn.e else numBody jn.m.natAbs jn.e

/-- The escape `JSON.stringify` applies to one string character: `\"` and
`\\`, the short escapes for the five named control characters, `\u00XX` for
the remaining control characters, and everything else verbatim. -/
def escapeChar (c : Char) : List Char :=
  if c = '"' then ['\\', '"']
  else if c = '\\' then ['\\', '\\']
  else if c = '\n' then ['\\', 'n']
  else if c = '\r' then ['\\', 'r']
  else if c = '\t' then ['\\', 't']
  else if c = '\x08' then ['\\', 'b']
  else if c = '\x0c' then ['\\', 'f']
  else if c.toNat < 32 then
    ['\\', 'u', '0', '0', hexDigit (c.toNat / 16), hexDigit (c.toNat % 16)]
  else [c]

/-- Escape a whole string body. -/
def escapeList : List Char → List Char
  | [] => []
  | c :: t => escapeChar c ++ escapeList t

/-- Decoding of a single-character escape (`\"`, `\\`, `\/`, `\n`, `\r`,
`\t`, `\b`, `\f`). -/
def escDecode (e : Char) : Option Char :=
  if e = '"' then some '"'
  else if e = '\\' then some '\\'
  else if e = '/' then some '/'
  else if e = 'n' then some '\n'
  else if e = 'r' then some '\r'
  else if e = 't' then some '\t'
  else if e = 'b' then some '\x08'
  else if e = 'f' then some '\x0c'
  else none

/-- Read a JSON string body up to (and consuming) the closing quote,
decoding escapes and rejecting unescaped control characters (as `JSON.parse`
does); returns the decoded characters and the remaining input. Recursion is
structural on the fuel; every step consumes at least one input character, so
fuel exceeding the input length never runs out. -/
def parseStringBody : Nat → List Char → Option (List Char × List Char)
  | 0, _ => none
  | _ + 1, [] => none
  | fuel + 1, c :: rest =>
    if c = '"' then some ([], rest)
    else if c = '\\' then
      match rest with
      | 'u' :: h1 :: h2 :: h3 :: h4 :: rest2 =>
        (match fromHexDigit h1, fromHexDigit h2, fromHexDigit h3, fromHexDigit h4 with
         | some a, some b, some hc, some d =>
           (parseStringBody fuel rest2).map
             (fun p => (Char.ofNat (((a * 16 + b) * 16 + hc) * 16 + d) :: p.1, p.2))
         | _, _, _, _ => none)
      | e :: rest2 =>
        (match escDecode e with
         | some d => (parseStringBody fuel rest2).map (fun p => (d :: p.1, p.2))
         | none => none)
      | [] => none
    else if c.toNat < 32 then none
    else (parseStringBody fuel rest).map (fun p => (c :: p.1, p.2))

/-- Read a JSON string body, with enough fuel for its own input. -/
def parseStr (cs : List Char) : Option (List Char × List Char) :=
  parseStringBody (cs.length + 1) cs

/-- JSON insignificant whitespace. -/
def isJsonWs (c : Char) : Bool := c = ' ' || c = '\t' || c = '\n' || c = '\r'

/-- Skip insignificant whitespace. -/
def skipWs (cs : List Char) : List Char := cs.dropWhile isJsonWs

/-- Apply the digits of an exponent part to the exact decimal
`mant / 10 ^ fracLen` read so far: a negative exponent deepens the fractional
scale, a positive one first cancels it and then multiplies into the
mantissa. -/
def parseExpDigits (mant : Int) (fracLen : Nat) (eneg : Bool) (ds0 : List Char) :
    Option (JNum × List Char) :=
  let expPart := ds0.takeWhile (fun c => c.isDigit)
  let rest2 := ds0.dropWhile (fun c => c.isDigit)
  if expPart = [] then none
  else if eneg then some (⟨mant, fracLen + charsVal expPart⟩, rest2)
  else if charsVal expPart ≤ fracLen then some (⟨mant, fracLen - charsVal expPart⟩, rest2)
  else some (⟨mant * 10 ^ (charsVal expPart - fracLen), 0⟩, rest2)

/-- Read an optional JSON exponent part (`e` or `E`, an optional sign, then
one or more digits, as in `JSON.parse`); when none is present the number read
so far passes through unchanged. -/
def parseExp (mant : Int) (fracLen : Nat) (rest : List Char) : Option (JNum × List Char) :=
  if rest.head? = some 'e' ∨ rest.head? = some 'E' then
    match rest.tail with
    | '+' :: ds0 => parseExpDigits mant fracLen false ds0
    | '-' :: ds0 => parseExpDigits mant fracLen true ds0
    | ds0 => parseExpDigits mant fracLen false ds0
  else some (⟨mant, fracLen⟩, rest)

/-- Read a JSON number after the optional minus sign: integer digits (a
leading zero only as the single digit `0`, as `JSON.parse` requires), an
optional fraction, and an optional exponent. -/
def parseNumBody (neg : Bool) (cs1 : List Char) : Option (JNum × List Char) :=
  let intPart := cs1.takeWhile (fun c => c.isDigit)
  let rest1 := cs1.dropWhile (fun c => c.isDigit)
  if intPart = [] then none
  else if intPart.head? = some '0' ∧ 1 < intPart.length then none
  else if rest1.head? = some '.' then
    let fracPart := rest1.tail.takeWhile (fun c => c.isDigit)
    let rest2 := rest1.tail.dropWhile (fun c => c.isDigit)
    if fracPart = [] then none
    else parseExp (intOfSign neg (charsVal (intPart ++ fracPart))) fracPart.length rest2
  else parseExp (intOfSign neg (charsVal intPart)) 0 rest1

/-- Entry point for numbers (sign handling). -/
def parseNum : List Char → Option (JNum × List Char)
  | [] => none
  | c :: cs0 => if c = '-' then parseNumBody true cs0 else parseNumBody false (c :: cs0)

/-- The input following a printed number must not begin with a digit, a
decimal point, or an exponent marker (in serialized JSON it is a separator, a
closer, or the end). -/
def numBoundary (rest : List Char) : Prop :=
  ∀ c, rest.head? = some c → (c.isDigit = false ∧ c ≠ '.' ∧ c ≠ 'e' ∧ c ≠ 'E')

/-- Reader of one JSON value whose leading whitespace is already skipped,
parameterized by the readers for array elements and object members (a
non-recursive dispatch on the first character). -/
def parseValWith (pe : List Char → Option (List Json × List Char))
    (pm : List Char → Option (List (String × Json) × List Char)) :
    List Char → Option (Json × List Char)
  | [] => none
  | c :: rest =>
    if c = 'n' then
      (match rest with
       | 'u' :: 'l' :: 'l' :: rest2 => some (Json.null, rest2)
       | _ => none)
    else if c = 't' then
      (match rest with
       | 'r' :: 'u' :: 'e' :: rest2 => some (Json.bool true, rest2)
       | _ => none)
    else if c = 'f' then
      (match rest with
       | 'a' :: 'l' :: 's' :: 'e' :: rest2 => some (Json.bool false, rest2)
       | _ => none)
    else if c = '"' then
      (parseStr rest).map (fun p => (Json.str (String.mk p.1), p.2))
    else if c = '[' then
      (let r1 := skipWs rest
       if r1.head? = some ']' then some (Json.arr [], r1.tail)
       else (pe r1).map (fun p => (Json.arr p.1, p.2)))
    else if c = '\x7b' then
      (let r1 := skipWs rest
       if r1.head? = some '\x7d' then some (Json.obj [], r1.tail)
       else (pm r1).map (fun p => (Json.obj p.1, p.2)))
    else (parseNum (c :: rest)).map (fun p => (Json.num p.1, p.2))

mutual

/-- Fuel-indexed JSON value reader (the fuel strictly decreases into every
mutual call, so the recursion is structural on it). -/
def parseVal : Nat → List Char → Option (Json × List Char)
  | 0, _ => none
  | fuel + 1, cs =>
    parseValWith (fun cs2 => parseElems fuel cs2) (fun cs2 => parseMembers fuel cs2) (skipWs cs)

/-- Reader of one or more comma-separated array elements up to (and
consuming) the closing bracket. -/
def parseElems : Nat → List Char → Option (List Json × List Char)
  | 0, _ => none
  | fuel + 1, cs =>
    (parseVal fuel cs).bind (fun p =>
      let r1 := skipWs p.2
      if r1.head? = some ',' then
        (parseElems fuel r1.tail).map (fun q => (p.1 :: q.1, q.2))
      else if r1.head? = some ']' then some ([p.1], r1.tail)
      else none)

/-- Reader of one or more comma-separated object members up to (and
consuming) the closing brace. -/
def parseMembers : Nat → List Char → Option (List (String × Json) × List Char)
  | 0, _ => none
  | fuel + 1, cs =>
    let r0 := skipWs cs
    if r0.head? = some '"' then
      (parseStr r0.tail).bind (fun kp =>
        let r1 := skipWs kp.2
        if r1.head? = some ':' then
          (parseVal fuel r1.tail).bind (fun vp =>
            let r2 := skipWs vp.2
            if r2.head? = some ',' then
              (parseMembers fuel r2.tail).map (fun q => ((String.mk kp.1, vp.1) :: q.1, q.2))
            else if r2.head? = some '\x7d' then some ([(String.mk kp.1, vp.1)], r2.tail)
            else none)
        else none)
    else none

end

mutual

/-- The characters `JSON.stringify` prints for a JSON value (no whitespace,
members and elements comma-separated, strings quoted and escaped). -/
def stringifyVal : Json → List Char
  | Json.null => ['n', 'u', 'l', 'l']
  | Json.bool true => ['t', 'r', 'u', 'e']
  | Json.bool false => ['f', 'a', 'l', 's', 'e']
  | Json.num n => numToChars n
  | Json.str s => '"' :: (escapeList s.data ++ ['"'])
  | Json.arr l => '[' :: (stringifyElems l ++ [']'])
  | Json.obj l => '\x7b' :: (stringifyMembers l ++ ['\x7d'])

/-- Comma-separated elements. -/
def stringifyElems : List Json → List Char
  | [] => []
  | [x] => stringifyVal x
  | x :: y :: t => stringifyVal x ++ ',' :: stringifyElems (y :: t)

/-- Comma-separated `"key":value` members. -/
def stringifyMembers : List (String × Json) → List Char
  | [] => []
  | [(k, v)] => '"' :: (escapeList k.data ++ '"' :: ':' :: stringifyVal v)
  | (k, v) :: m :: t =>
    '"' :: (escapeList k.data ++ '"' :: ':' :: stringifyVal v) ++ ',' :: stringifyMembers (m :: t)

end

mutual

/-- Grammar-derivation depth of a JSON value, used as sufficient parser fuel. -/
def sizeV : Json → Nat
  | Json.null => 1
  | Json.bool _ => 1
  | Json.num _ => 1
  | Json.str _ => 1
  | Json.arr l => 1 + sizeE l
  | Json.obj l => 1 + sizeM l

/-- Fuel needed for an element list. -/
def sizeE : List Json → Nat
  | [] => 0
  | x :: t => 1 + sizeV x + sizeE t

/-- Fuel needed for a member list. -/
def sizeM : List (String × Json) → Nat
  | [] => 0
  | (_, v) :: t => 1 + sizeV v + sizeM t

end

/-- `JSON.stringify` over the store's value, as a string. -/
def jsonStringify (j : Json) : String := String.mk (stringifyVal j)

/-- `JSON.parse`: reads one JSON value and requires the rest of the input to
be whitespace. -/
def jsonParse (s : String) : Option Json :=
  match parseVal (s.data.length + 1) s.data with
  | some (j, rest) => if skipWs rest = [] then some j else none
  | none => none

/-- `loadRuns()` (App.jsx line 21):
`try { return JSON.parse(localStorage.getItem(KEY)||"[]")||[] } catch { return [] }`.
The store content is `none` when the key is absent (`getItem` returns `null`,
so `||"[]"` substitutes `"[]"`); a parse failure throws and is caught to `[]`;
a falsy parsed value is replaced by `[]`; any other parsed value is returned
as-is — the code performs no schema validation. -/
def loadRuns (content : Option String) : Json :=
  match jsonParse (content.getD "[]") with
  | some j => if jsTruthy j then j else Json.arr []
  | none => Json.arr []

/-- The JS object layout of a `StudentDetail` (App.jsx line 25), as
serialized. -/
def encodeStudent (s : StudentDetail) : Json :=
  Json.obj [("name", Json.str s.name), ("age", Json.str s.age),
    ("gender", Json.str s.gender), ("interest", Json.str s.interest),
    ("passion", Json.str s.passion), ("energy", Json.str s.energy),
    ("notes", Json.str s.notes)]

/-- The JS object layout of a `ClassProfile` (App.jsx line 24). -/
def encodeProfile (p : ClassProfile) : Json :=
  Json.obj [("subject", Json.str p.subject), ("expectation", Json.str p.expectation),
    ("totalSessions", Json.num (jnumOfNat p.totalSessions)),
    ("sessionLengthHours", Json.num p.sessionLengthHours),
    ("numStudents", Json.num (jnumOfNat p.numStudents)),
    ("ageRange", Json.str p.ageRange),
    ("students", Json.arr (p.students.map encodeStudent))]

/-- The JS object layout of a `SessionFeedback` (App.jsx line 26): absent
(`null`) numeric/select values serialize as JSON `null`. -/
def encodeFeedback (f : SessionFeedback) : Json :=
  Json.obj [("excitedCount",
      match f.excitedCount with
      | some n => Json.num (jnumOfNat n)
      | none => Json.null),
    ("digestible",
      match f.digestible with
      | some s => Json.str s
      | none => Json.null),
    ("otherInterests", Json.str f.otherInterests),
    ("notGoodEnough", Json.str f.notGoodEnough)]

/-- The JS object layout of a `SessionRecord` (App.jsx lines 230–233, 249):
the `feedback` property is absent until attached, and `JSON.stringify` omits
absent properties. -/
def encodeRecord (r : SessionRecord) : Json :=
  match r.feedback with
  | some f =>
    Json.obj [("sessionNumber", Json.num (jnumOfNat r.sessionNumber)),
      ("generatedAt", Json.str r.generatedAt), ("planMd", Json.str r.planMd),
      ("feedback", encodeFeedback f)]
  | none =>
    Json.obj [("sessionNumber", Json.num (jnumOfNat r.sessionNumber)),
      ("generatedAt", Json.str r.generatedAt), ("planMd", Json.str r.planMd)]

/-- The JS object layout of a `ClassRun` (App.jsx lines 222, 260). -/
def encodeRun (r : ClassRun) : Json :=
  match r.profile with
  | some p =>
    Json.obj [("id", Json.str r.id), ("profile", encodeProfile p),
      ("sessions", Json.arr (r.sessions.map encodeRecord))]
  | none =>
    Json.obj [("id", Json.str r.id), ("sessions", Json.arr (r.sessions.map encodeRecord))]

/-- The serialized top-level store: the list of runs. -/
def encodeRuns (runs : List ClassRun) : Json := Json.arr (runs.map encodeRun)

/-- `saveRuns(runs)` (App.jsx line 22): `JSON.stringify(runs)` into the single
localStorage key. -/
def saveRuns (runs : List ClassRun) : String := jsonStringify (encodeRuns runs)

/-- Read-back interpretation of a serialized `StudentDetail`: the
field-for-field inverse of `encodeStudent`, stated for the round-trip claim. -/
def readBackStudent : Json → Option StudentDetail
  | Json.obj [("name", Json.str name), ("age", Json.str age),
      ("gender", Json.str gender), ("interest", Json.str interest),
      ("passion", Json.str passion), ("energy", Json.str energy),
      ("notes", Json.str notes)] =>
    some
      { name := name, age := age, gender := gender, interest := interest,
        passion := passion, energy := energy, notes := notes }
  | _ => none

/-- Read back a list of students. -/
def readBackStudents : List Json → Option (List StudentDetail)
  | [] => some []
  | j :: t => (readBackStudent j).bind (fun s => (readBackStudents t).map (fun l => s :: l))

/-- Read-back interpretation of a serialized `ClassProfile`. -/
def readBackProfile : Json → Option ClassProfile
  | Json.obj [("subject", Json.str subject), ("expectation", Json.str expectation),
      ("totalSessions", Json.num ⟨Int.ofNat total, 0⟩),
      ("sessionLengthHours", Json.num len),
      ("numStudents", Json.num ⟨Int.ofNat numStudents, 0⟩),
      ("ageRange", Json.str ageRange),
      ("students", Json.arr sj)] =>
    (readBackStudents sj).map (fun students =>
      { subject := subject, expectation := expectation, totalSessions := total,
        sessionLengthHours := len, numStudents := numStudents, ageRange := ageRange,
        students := students })
  | _ => none

/-- Read back an optional non-negative integer (JSON `null` or number). -/
def readBackOptNat : Json → Option (Option Nat)
  | Json.null => some none
  | Json.num ⟨Int.ofNat n, 0⟩ => some (some n)
  | _ => none

/-- Read back an optional string (JSON `null` or string). -/
def readBackOptStr : Json → Option (Option String)
  | Json.null => some none
  | Json.str s => some (some s)
  | _ => none

/-- Read-back interpretation of a serialized `SessionFeedback`. -/
def readBackFeedback : Json → Option SessionFeedback
  | Json.obj [("excitedCount", ej), ("digestible", dj),
      ("otherInterests", Json.str oi), ("notGoodEnough", Json.str ng)] =>
    (readBackOptNat ej).bind (fun ec =>
      (readBackOptStr dj).map (fun dg =>
        { excitedCount := ec, digestible := dg, otherInterests := oi, notGoodEnough := ng }))
  | _ => none

/-- Read-back interpretation of a serialized `SessionRecord`. -/
def readBackRecord : Json → Option SessionRecord
  | Json.obj [("sessionNumber", Json.num ⟨Int.ofNat n, 0⟩),
      ("generatedAt", Json.str g), ("planMd", Json.str md),
      ("feedback", fj)] =>
    (readBackFeedback fj).map (fun f =>
      { sessionNumber := n, generatedAt := g, planMd := md, feedback := some f })
  | Json.obj [("sessionNumber", Json.num ⟨Int.ofNat n, 0⟩),
      ("generatedAt", Json.str g), ("planMd", Json.str md)] =>
    some { sessionNumber := n, generatedAt := g, planMd := md, feedback := none }
  | _ => none

/-- Read back a list of session records. -/
def readBackRecords : List Json → Option (List SessionRecord)
  | [] => some []
  | j :: t => (readBackRecord j).bind (fun r => (readBackRecords t).map (fun l => r :: l))

/-- Read-back interpretation of a serialized `ClassRun`. -/
def readBackRun : Json → Option ClassRun
  | Json.obj [("id", Json.str i), ("profile", pj), ("sessions", Json.arr sj)] =>
    (readBackProfile pj).bind (fun p =>
      (readBackRecords sj).map (fun sessions =>
        { id := i, profile := some p, sessions := sessions }))
  | Json.obj [("id", Json.str i), ("sessions", Json.arr sj)] =>
    (readBackRecords sj).map (fun sessions =>
      { id := i, profile := none, sessions := sessions })
  | _ => none

/-- Read back a list of runs. -/
def readBackRunList : List Json → Option (List ClassRun)
  | [] => some []
  | j :: t => (readBackRun j).bind (fun r => (readBackRunList t).map (fun l => r :: l))

/-- Read-back interpretation of the whole store. -/
def readBackRuns : Json → Option (List ClassRun)
  | Json.arr l => readBackRunList l
  | _ => none

/-! ### Helper lemmas -/

theorem jsMapIdxGo_length (f : Nat → α → β) : ∀ (k : Nat) (l : List α),
    (jsMapIdxGo f k l).length = l.length := by
  intro k l
  induction l generalizing k with
  | nil => rfl
  | cons x xs ih => simp [jsMapIdxGo, ih]

theorem map_jsMapIdxGo (g : β → γ) (g' : α → γ) (f : Nat → α → β)
    (h : ∀ i x, g (f i x) = g' x) : ∀ (k : Nat) (l : List α),
    (jsMapIdxGo f k l).map g = l.map g' := by
  intro k l
  induction l generalizing k with
  | nil => rfl
  | cons x xs ih => simp [jsMapIdxGo, h, ih]

theorem attachFeedbackLast_length (l : List SessionRecord) (fb : SessionFeedback) :
    (attachFeedbackLast l fb).length = l.length :=
  jsMapIdxGo_length _ 0 l

theorem attachFeedbackLast_core (l : List SessionRecord) (fb : SessionFeedback) :
    (attachFeedbackLast l fb).map coreOf = l.map coreOf := by
  refine map_jsMapIdxGo coreOf coreOf _ ?_ 0 l
  intro i x
  by_cases h : i = l.length - 1 <;> simp [h, coreOf]

theorem sessionsPreserved_refl (l : List SessionRecord) : sessionsPreserved l l :=
  ⟨le_refl _, by rw [List.take_length]⟩

theorem sessionsPreserved_trans {a b c : List SessionRecord}
    (h1 : sessionsPreserved a b) (h2 : sessionsPreserved b c) : sessionsPreserved a c := by
  obtain ⟨hl1, hm1⟩ := h1
  obtain ⟨hl2, hm2⟩ := h2
  refine ⟨le_trans hl1 hl2, ?_⟩
  have htake : c.take a.length = (c.take b.length).take a.length := by
    rw [List.take_take, min_eq_left hl1]
  calc (c.take a.length).map coreOf
      = ((c.take b.length).take a.length).map coreOf := by rw [htake]
    _ = ((c.take b.length).map coreOf).take a.length := by rw [List.map_take]
    _ = (b.map coreOf).take a.length := by rw [hm2]
    _ = (b.take a.length).map coreOf := by rw [List.map_take]
    _ = a.map coreOf := hm1

theorem sessionsPreserved_append (l : List SessionRecord) (x : SessionRecord) :
    sessionsPreserved l (l ++ [x]) := by
  refine ⟨by simp, ?_⟩
  rw [List.take_left]

theorem sessionsPreserved_attach (l : List SessionRecord) (fb : SessionFeedback) :
    sessionsPreserved l (attachFeedbackLast l fb) := by
  refine ⟨le_of_eq (attachFeedbackLast_length l fb).symm, ?_⟩
  rw [show l.length = (attachFeedbackLast l fb).length from (attachFeedbackLast_length l fb).symm,
    List.take_length, attachFeedbackLast_core]

theorem findRun_mem {runs : List ClassRun} {aid : String} {r : ClassRun}
    (h : findRun runs aid = some r) : r ∈ runs :=
  List.mem_of_find?_eq_some h

theorem findRun_id {runs : List ClassRun} {aid : String} {r : ClassRun}
    (h : findRun runs aid = some r) : r.id = aid := by
  have := List.find?_some h
  exact eq_of_beq this

theorem nodup_id_inj {runs : List ClassRun} (h : (runIds runs).Nodup)
    {r r' : ClassRun} (hr : r ∈ runs) (hr' : r' ∈ runs) (hid : r.id = r'.id) : r = r' :=
  List.inj_on_of_nodup_map h hr hr' hid

/-- Every run of `runs.map g` is core-preserving over `runs`, provided `g`
preserves ids and session cores. -/
theorem mono_of_map {runs : List ClassRun} {g : ClassRun → ClassRun}
    (hnd : (runIds runs).Nodup)
    (hid : ∀ r ∈ runs, (g r).id = r.id)
    (hpres : ∀ r ∈ runs, sessionsPreserved r.sessions (g r).sessions) :
    ∀ r' ∈ runs.map g, ∀ r ∈ runs, r.id = r'.id →
      sessionsPreserved r.sessions r'.sessions := by
  intro r' hr' r hr hidr
  obtain ⟨r0, hr0, rfl⟩ := List.mem_map.mp hr'
  have : r = r0 := nodup_id_inj hnd hr hr0 (hidr.trans (hid r0 hr0))
  subst this
  exact hpres r hr

theorem runIds_map {runs : List ClassRun} {g : ClassRun → ClassRun}
    (hid : ∀ r ∈ runs, (g r).id = r.id) : runIds (runs.map g) = runIds runs := by
  unfold runIds
  rw [List.map_map]
  exact List.map_congr_left (fun r hr => hid r hr)

/-- Every user interaction leaves the runs list in one of three shapes:
a sublist of the old one (deletion / no change), a pointwise id-preserving and
core-preserving rewrite, or a freshly created empty run in front. -/
theorem step_runs_shape (st : AppState) (op : Op) :
    ((step st op).runs).Sublist st.runs ∨
    (∃ g : ClassRun → ClassRun, (step st op).runs = st.runs.map g ∧
      (∀ r ∈ st.runs, (g r).id = r.id) ∧
      ((runIds st.runs).Nodup → ∀ r ∈ st.runs, sessionsPreserved r.sessions (g r).sessions)) ∨
    (∃ i : String, op = Op.newClassRun i ∧
      (step st op).runs = { id := i, profile := some newEmptyProfile, sessions := [] } :: st.runs) := by
  cases op with
  | editProfile p => exact Or.inl (List.Sublist.refl _)
  | editFeedback fb => exact Or.inl (List.Sublist.refl _)
  | selectRun i =>
    have h : (step st (Op.selectRun i)).runs = st.runs := by
      unfold step
      rcases hf : findRun st.runs i with _ | r <;> simp only [hf]
    exact Or.inl (h ▸ List.Sublist.refl _)
  | saveProfile =>
    refine Or.inr (Or.inl ⟨fun r =>
      if r.id == st.activeId then { r with profile := some st.profile } else r, rfl, ?_, ?_⟩)
    · intro r _
      by_cases h : r.id == st.activeId <;> simp [h]
    · intro _ r _
      by_cases h : r.id == st.activeId <;> simp [h, sessionsPreserved_refl]
  | generatePlan now =>
    rcases hc : generateNextPlanCore st.runs st.activeId st.profile now with ⟨o, alerts⟩
    cases o with
    | none =>
      have h : (step st (Op.generatePlan now)).runs = st.runs := by
        show ((generateNextPlan st now).1).runs = st.runs
        unfold generateNextPlan
        rw [hc]
      exact Or.inl (h ▸ List.Sublist.refl _)
    | some sr =>
      refine Or.inr (Or.inl ⟨fun r =>
        if r.id == st.activeId then { r with sessions := r.sessions ++ [sr] } else r, ?_, ?_, ?_⟩)
      · show ((generateNextPlan st now).1).runs = _
        unfold generateNextPlan
        rw [hc]
        rfl
      · intro r _
        by_cases h : r.id == st.activeId <;> simp [h]
      · intro _ r _
        by_cases h : r.id == st.activeId <;>
          simp [h, sessionsPreserved_refl, sessionsPreserved_append]
  | submitFeedback now =>
    rcases hfind : findRun st.runs st.activeId with _ | run
    · have h : (step st (Op.submitFeedback now)).runs = st.runs := by
        show ((submitFeedbackAndGenerate st now).1).runs = st.runs
        unfold submitFeedbackAndGenerate
        rw [hfind]
      exact Or.inl (h ▸ List.Sublist.refl _)
    · by_cases hlen : run.sessions.length = 0
      · have h : (step st (Op.submitFeedback now)).runs = st.runs := by
          show ((submitFeedbackAndGenerate st now).1).runs = st.runs
          unfold submitFeedbackAndGenerate
          rw [hfind]
          simp [hlen]
        exact Or.inl (h ▸ List.Sublist.refl _)
      · have hrunid : run.id = st.activeId := findRun_id hfind
        have hrunmem : run ∈ st.runs := findRun_mem hfind
        have hg1id : ∀ r ∈ st.runs,
            ((fun r => if r.id == st.activeId then
              { run with sessions := attachFeedbackLast run.sessions st.feedback } else r) r).id
              = r.id := by
          intro r _
          by_cases h : r.id == st.activeId
          · simp only [h, if_pos]
            exact hrunid.trans (eq_of_beq h).symm
          · simp [h]
        have hg1pres : (runIds st.runs).Nodup → ∀ r ∈ st.runs,
            sessionsPreserved r.sessions
              ((fun r => if r.id == st.activeId then
                { run with sessions := attachFeedbackLast run.sessions st.feedback } else r)
                r).sessions := by
          intro hnd r hr
          by_cases h : r.id == st.activeId
          · have : r = run := nodup_id_inj hnd hr hrunmem ((eq_of_beq h).trans hrunid.symm)
            subst this
            simp only [h, if_pos]
            exact sessionsPreserved_attach _ _
          · simp [h, sessionsPreserved_refl]
        rcases hc : generateNextPlanCore st.runs st.activeId st.profile now with ⟨o, alerts⟩
        cases o with
        | none =>
          refine Or.inr (Or.inl ⟨fun r => if r.id == st.activeId then
            { run with sessions := attachFeedbackLast run.sessions st.feedback } else r,
            ?_, hg1id, hg1pres⟩)
          show ((submitFeedbackAndGenerate st now).1).runs = _
          unfold submitFeedbackAndGenerate
          simp only [hfind]
          rw [if_neg hlen]
          simp only [hc]
        | some sr =>
          refine Or.inr (Or.inl ⟨(fun r => if r.id == st.activeId then
              { r with sessions := r.sessions ++ [sr] } else r) ∘
            (fun r => if r.id == st.activeId then
              { run with sessions := attachFeedbackLast run.sessions st.feedback } else r),
            ?_, ?_, ?_⟩)
          · show ((submitFeedbackAndGenerate st now).1).runs = _
            unfold submitFeedbackAndGenerate
            simp only [hfind]
            rw [if_neg hlen]
            simp only [hc]
            show appendToActive _ st.activeId sr = _
            unfold appendToActive
            rw [List.map_map]
          · intro r hr
            have h1 := hg1id r hr
            dsimp only [Function.comp]
            by_cases h : ((fun r => if r.id == st.activeId then
                { run with sessions := attachFeedbackLast run.sessions st.feedback } else r)
                r).id == st.activeId <;> simp only [h, if_pos, if_neg, Bool.not_eq_true] <;>
              exact h1
          · intro hnd r hr
            refine sessionsPreserved_trans (hg1pres hnd r hr) ?_
            dsimp only [Function.comp]
            by_cases h : ((fun r => if r.id == st.activeId then
                { run with sessions := attachFeedbackLast run.sessions st.feedback } else r)
                r).id == st.activeId
            · simp only [h, if_pos]
              exact sessionsPreserved_append _ _
            · simp only [h, if_neg, Bool.not_eq_true]
              exact sessionsPreserved_refl _
  | newClassRun i => exact Or.inr (Or.inr ⟨i, rfl, rfl⟩)
  | deleteRun i =>
    have h : (step st (Op.deleteRun i)).runs = st.runs.filter (fun r => !(r.id == i)) := by
      unfold step
      dsimp only []
      split
      · cases (st.runs.filter (fun r => !(r.id == i))).head? <;> simp
      · rfl
    exact Or.inl (h ▸ List.filter_sublist _)

theorem mem_opBase {base : List String} {op : Op} {i : String} (h : i ∈ base) :
    i ∈ opBase base op := by
  cases op <;> simp [opBase, h]

/-- One step: every resulting run either core-extends an existing run with the
same id, or carries an id that was never seen before. -/
theorem step_pres (st : AppState) (op : Op) (base : List String)
    (hsub : ∀ i ∈ runIds st.runs, i ∈ base) (hnd : (runIds st.runs).Nodup)
    (hfresh : opFresh base op) :
    ∀ r' ∈ (step st op).runs,
      (∃ r ∈ st.runs, r.id = r'.id ∧ sessionsPreserved r.sessions r'.sessions) ∨
        r'.id ∉ base := by
  intro r' hr'
  rcases step_runs_shape st op with hshape | ⟨g, hg, hid, hpres⟩ | ⟨i, hop, hshape⟩
  · exact Or.inl ⟨r', hshape.subset hr', rfl, sessionsPreserved_refl _⟩
  · rw [hg] at hr'
    obtain ⟨r0, hr0, rfl⟩ := List.mem_map.mp hr'
    exact Or.inl ⟨r0, hr0, (hid r0 hr0).symm, hpres hnd r0 hr0⟩
  · rw [hshape] at hr'
    rcases List.mem_cons.mp hr' with rfl | hmem
    · subst hop
      exact Or.inr hfresh
    · exact Or.inl ⟨r', hmem, rfl, sessionsPreserved_refl _⟩

theorem step_ids (st : AppState) (op : Op) (base : List String)
    (hsub : ∀ i ∈ runIds st.runs, i ∈ base) :
    ∀ i ∈ runIds (step st op).runs, i ∈ opBase base op := by
  intro i hi
  rcases step_runs_shape st op with hshape | ⟨g, hg, hid, _⟩ | ⟨j, hop, hshape⟩
  · exact mem_opBase (hsub i ((hshape.map (fun r => r.id)).subset hi))
  · rw [hg, runIds_map hid] at hi
    exact mem_opBase (hsub i hi)
  · subst hop
    rw [hshape] at hi
    rcases List.mem_cons.mp hi with rfl | hmem
    · simp [opBase]
    · exact List.mem_cons_of_mem _ (hsub i hmem)

theorem step_nodup (st : AppState) (op : Op) (base : List String)
    (hsub : ∀ i ∈ runIds st.runs, i ∈ base) (hnd : (runIds st.runs).Nodup)
    (hfresh : opFresh base op) : (runIds (step st op).runs).Nodup := by
  rcases step_runs_shape st op with hshape | ⟨g, hg, hid, _⟩ | ⟨j, hop, hshape⟩
  · unfold runIds at hnd ⊢
    exact List.Nodup.sublist (hshape.map (fun r => r.id)) hnd
  · rw [hg, runIds_map hid]
    exact hnd
  · subst hop
    rw [hshape]
    refine List.Nodup.cons ?_ hnd
    intro hmem
    exact hfresh (hsub j hmem)

/-- Along any trace of user interactions with fresh "New Class" ids, every
run in the final state either core-extends a run of the initial state with the
same id, or has an id outside the initial id set. -/
theorem steps_pres : ∀ (ops : List Op) (st : AppState) (base : List String),
    (∀ i ∈ runIds st.runs, i ∈ base) → (runIds st.runs).Nodup → FreshOps base ops →
    ∀ r' ∈ (steps st ops).runs,
      (∃ r ∈ st.runs, r.id = r'.id ∧ sessionsPreserved r.sessions r'.sessions) ∨
        r'.id ∉ base := by
  intro ops
  induction ops with
  | nil =>
    intro st base hsub hnd _ r' hr'
    exact Or.inl ⟨r', hr', rfl, sessionsPreserved_refl _⟩
  | cons op ops ih =>
    intro st base hsub hnd hfresh r' hr'
    obtain ⟨hf, hrest⟩ := hfresh
    have h2 := ih (step st op) (opBase base op) (step_ids st op base hsub)
      (step_nodup st op base hsub hnd hf) hrest r' hr'
    rcases h2 with ⟨r1, hr1, hid1, hp1⟩ | hnotin
    · rcases step_pres st op base hsub hnd hf r1 hr1 with ⟨r0, hr0, hid0, hp0⟩ | hnotin1
      · exact Or.inl ⟨r0, hr0, hid0.trans hid1, sessionsPreserved_trans hp0 hp1⟩
      · exact Or.inr (hid1 ▸ hnotin1)
    · exact Or.inr (fun hmem => hnotin (mem_opBase hmem))

/-! ### Claims -/

/-- C6 (amended): along every reachable sequence of user interactions (starting
from a state with distinct run ids, with fresh "New Class" ids), every
surviving run's session records keep their `sessionNumber`, `generatedAt` and
`planMd` exactly as created, and records are only ever appended.  (The original
claim's "feedback is written at most once" part is refuted separately: a
feedback submission always writes to the most recent record, so it can
overwrite an earlier attachment when the follow-up generation was refused.) -/
theorem claim6CoreImmutable (st : AppState) (ops : List Op)
    (hnd : (runIds st.runs).Nodup) (hfresh : FreshOps (runIds st.runs) ops) :
    ∀ r' ∈ (steps st ops).runs, ∀ r ∈ st.runs, r.id = r'.id →
      sessionsPreserved r.sessions r'.sessions := by
  intro r' hr' r hr hid
  rcases steps_pres ops st (runIds st.runs) (fun _ h => h) hnd hfresh r' hr' with
    ⟨r0, hr0, hid0, hp⟩ | hnot
  · have : r = r0 := nodup_id_inj hnd hr hr0 (hid.trans hid0.symm)
    subst this
    exact hp
  · exact absurd (hid ▸ List.mem_map_of_mem (fun r => r.id) hr) hnot

/-- Witness for C6 (amended): a concrete one-step trace (generating the first
plan for the `stOne` state) under which the initial (empty) record list of the
run is preserved. -/
theorem claim6CoreImmutableWitness :
    sessionsPreserved
      ({ id := "r1", profile := some pfOneTotal, sessions := [] } : ClassRun).sessions
      ({ id := "r1", profile := some pfOneTotal,
         sessions := [makePlan pfOneTotal none 1 "t1"] } : ClassRun).sessions :=
  claim6CoreImmutable stOne [Op.generatePlan "t1"] (by decide) ⟨trivial, trivial⟩
    { id := "r1", profile := some pfOneTotal, sessions := [makePlan pfOneTotal none 1 "t1"] }
    (by rw [show (steps stOne [Op.generatePlan "t1"]).runs
          = [{ id := "r1", profile := some pfOneTotal,
               sessions := [makePlan pfOneTotal none 1 "t1"] }] from rfl]
        exact List.mem_singleton.mpr rfl)
    { id := "r1", profile := some pfOneTotal, sessions := [] }
    (by exact List.mem_singleton.mpr rfl) rfl

/-- C6 (counterexample): the `feedback` field is *not* written at most once.
With `totalSessions = 1`, generate session 1, submit feedback `fbRobotics`
(the follow-up generation is refused), then submit feedback `fbSecond`: the
same record's feedback changes from `fbRobotics` to `fbSecond`. -/
theorem claim6Counterexample :
    stOverwriteMid.runs.map (fun r => r.sessions.map (fun s => s.feedback))
      = [[some fbRobotics]] ∧
    stOverwriteEnd.runs.map (fun r => r.sessions.map (fun s => s.feedback))
      = [[some fbSecond]] ∧
    fbRobotics ≠ fbSecond := by
  refine ⟨by decide, by decide, by decide⟩

/-- Unfolding of the `needsMoreEngagement` signal. -/
theorem needsMoreEngagement_eq (p : ClassProfile) (fb : Option SessionFeedback) (n : Nat) :
    (deriveSignals p fb n).needsMoreEngagement
      = decide ((((fb.bind (fun f => f.excitedCount)).getD 0 : Nat) : ℚ)
          / ((max 1 p.numStudents : Nat) : ℚ) < 1/2) := rfl

/-- Unfolding of the `needsMoreScaffold` signal. -/
theorem needsMoreScaffold_eq (p : ClassProfile) (fb : Option SessionFeedback) (n : Nat) :
    (deriveSignals p fb n).needsMoreScaffold
      = (decide ((match fb.bind (fun f => f.digestible) with
            | some s => if s = "" then none else some s
            | none => (none : Option String)) = some "no")
        || decide ((match fb.bind (fun f => f.digestible) with
            | some s => if s = "" then none else some s
            | none => (none : Option String)) = some "some")) := rfl

/-- Generation is refused with the subject alert when the active run's profile
has an empty subject. -/
theorem genCoreEmptySubject {runs : List ClassRun} {aid : String} {pfState : ClassProfile}
    {now : String} {run : ClassRun} {pf : ClassProfile}
    (hfind : findRun runs aid = some run) (hpf : run.profile = some pf)
    (hsub : pf.subject = "") :
    generateNextPlanCore runs aid pfState now = (none, [subjectAlert]) := by
  unfold generateNextPlanCore
  simp only [hfind, Option.some_bind, hpf, Option.getD_some, hsub, if_pos]

/-- Generation is refused with the session-count alert when the subject is
non-empty, `totalSessions` is non-zero and the session count has reached it. -/
theorem genCoreFull {runs : List ClassRun} {aid : String} {pfState : ClassProfile}
    {now : String} {run : ClassRun} {pf : ClassProfile}
    (hfind : findRun runs aid = some run) (hpf : run.profile = some pf)
    (hsub : pf.subject ≠ "") (hpos : pf.totalSessions ≠ 0)
    (hlen : pf.totalSessions ≤ run.sessions.length) :
    generateNextPlanCore runs aid pfState now = (none, [totalAlert]) := by
  unfold generateNextPlanCore
  simp only [hfind, Option.some_bind, hpf, Option.getD_some]
  rw [if_neg hsub, if_neg hpos,
    show (Option.map (fun r => r.sessions.length) (some run)).getD 0 = run.sessions.length from rfl,
    if_pos (show run.sessions.length + 1 > pf.totalSessions by omega)]

/-- C9: requesting plan generation for a run whose profile has an empty subject
is refused with the subject alert and leaves the state (hence the run's session
list) unchanged. -/
theorem claim9EmptySubjectRefused (st : AppState) (now : String) (run : ClassRun)
    (pf : ClassProfile) (hfind : findRun st.runs st.activeId = some run)
    (hpf : run.profile = some pf) (hsub : pf.subject = "") :
    generateNextPlan st now = (st, [subjectAlert]) := by
  unfold generateNextPlan
  rw [genCoreEmptySubject hfind hpf hsub]

/-- Witness for C9 at the concrete state `stEmptySubject`. -/
theorem claim9EmptySubjectRefusedWitness :
    generateNextPlan stEmptySubject "t" = (stEmptySubject, [subjectAlert]) :=
  claim9EmptySubjectRefused stEmptySubject "t"
    { id := "r1", profile := some newEmptyProfile, sessions := [] } newEmptyProfile rfl rfl rfl

/-- C2 (counterexample): with the non-negative `totalSessions = 0` and
`sessions.length == totalSessions` (both `0`), a generation request is *not*
refused: no alert is raised and a record is appended, after which
`sessions.length = 1` exceeds `totalSessions = 0` (the `pf.totalSessions || 1`
guard treats `0` as `1`). -/
theorem claim2Counterexample :
    pfZeroTotal.totalSessions = 0 ∧
    stZeroTotal.runs.map (fun r => r.sessions.length) = [0] ∧
    (generateNextPlan stZeroTotal "t0").2 = [] ∧
    (generateNextPlan stZeroTotal "t0").1.runs.map (fun r => r.sessions.length) = [1] :=
  ⟨rfl, rfl, rfl, rfl⟩

/-- C2 (amended): for every run whose profile has a *positive* `totalSessions`
(as the data model prescribes), a generation request made when
`sessions.length == totalSessions` is refused with a user-visible alert and
leaves the state — hence the run — unchanged, so generation never pushes
`sessions.length` beyond a positive `totalSessions`. -/
theorem claim2GuardPositiveTotal (st : AppState) (now : String) (run : ClassRun)
    (pf : ClassProfile) (hfind : findRun st.runs st.activeId = some run)
    (hpf : run.profile = some pf) (hpos : 1 ≤ pf.totalSessions)
    (hlen : run.sessions.length = pf.totalSessions) :
    (generateNextPlan st now).1 = st ∧ (generateNextPlan st now).2 ≠ [] := by
  by_cases hsub : pf.subject = ""
  · have h := @genCoreEmptySubject st.runs st.activeId st.profile now run pf hfind hpf hsub
    unfold generateNextPlan
    rw [h]
    exact ⟨rfl, by simp⟩
  · have h := @genCoreFull st.runs st.activeId st.profile now run pf hfind hpf hsub
      (by omega) (le_of_eq hlen.symm)
    unfold generateNextPlan
    rw [h]
    exact ⟨rfl, by simp⟩

/-- Witness for C2 (amended) at the concrete full run `stFullOne`
(`totalSessions = 1`, one session generated). -/
theorem claim2GuardPositiveTotalWitness :
    (generateNextPlan stFullOne "t").1 = stFullOne ∧ (generateNextPlan stFullOne "t").2 ≠ [] :=
  claim2GuardPositiveTotal stFullOne "t"
    { id := "r1", profile := some pfOneTotal, sessions := [sampleRecord] } pfOneTotal
    rfl rfl (by decide) rfl

/-- C3 (counterexample): for a profile with `numStudents = 0` and feedback with
`excitedCount = 1`, `needsMoreEngagement` is `false` (the division-by-zero
guard makes the denominator 1, so excitement is `1/1 = 1 ≥ 0.5`), contradicting
"true regardless of `excitedCount`". -/
theorem claim3Counterexample :
    pfNoStudents.numStudents = 0 ∧
    fbRobotics.excitedCount = some 1 ∧
    (deriveSignals pfNoStudents (some fbRobotics) 1).needsMoreEngagement = false := by
  refine ⟨rfl, rfl, ?_⟩
  rw [needsMoreEngagement_eq, decide_eq_false_iff_not]
  show ¬((((1 : Nat) : ℚ) / ((max 1 0 : Nat) : ℚ)) < 1/2)
  norm_num

/-- C3 (amended): for every profile with `numStudents = 0`,
`needsMoreEngagement` is true exactly when the feedback's `excitedCount` is
absent or `0` (the guarded denominator is 1, so excitement equals the raw
count). -/
theorem claim3ZeroStudents (p : ClassProfile) (fb : Option SessionFeedback) (n : Nat)
    (h : p.numStudents = 0) :
    (deriveSignals p fb n).needsMoreEngagement = true ↔
      (fb.bind (fun f => f.excitedCount)).getD 0 = 0 := by
  rw [needsMoreEngagement_eq, decide_eq_true_eq, h]
  rw [show ((max 1 0 : Nat) : ℚ) = 1 from rfl, div_one]
  constructor
  · intro hlt
    by_contra hne
    have h1 : 1 ≤ (fb.bind (fun f => f.excitedCount)).getD 0 := Nat.one_le_iff_ne_zero.mpr hne
    have h2 : (1:ℚ) ≤ (((fb.bind (fun f => f.excitedCount)).getD 0 : Nat) : ℚ) := by
      exact_mod_cast h1
    linarith
  · intro h0
    rw [h0]
    norm_num

/-- Witness for C3 (amended) at the concrete profile `pfNoStudents` with absent
feedback. -/
theorem claim3ZeroStudentsWitness :
    (deriveSignals pfNoStudents none 1).needsMoreEngagement = true ↔
      ((none : Option SessionFeedback).bind (fun f => f.excitedCount)).getD 0 = 0 :=
  claim3ZeroStudents pfNoStudents none 1 rfl

/-- C8: `needsMoreScaffold` is true iff the feedback's `digestible` field is
`"no"` or `"some"`; it is false when the field is `"yes"`, absent, or the whole
feedback record is absent. -/
theorem claim8ScaffoldIff (p : ClassProfile) (fb : Option SessionFeedback) (n : Nat) :
    (deriveSignals p fb n).needsMoreScaffold = true ↔
      (fb.bind (fun f => f.digestible) = some "no" ∨
        fb.bind (fun f => f.digestible) = some "some") := by
  rw [needsMoreScaffold_eq]
  rcases hd : fb.bind (fun f => f.digestible) with _ | s
  · simp
  · by_cases hs : s = ""
    · subst hs
      simp
    · simp [hs]

/-- C4 (counterexample): the rounded time blocks do *not* scale linearly with
`sessionLengthHours`.  At a half-hour session they are `{5, 8, 8, 8, 3}`
(`Math.round(7.5) = 8`, `Math.round(2.5) = 3`), while linear scaling of the
one-hour blocks `{10, 15, 15, 15, 5}` would give `{5, 7.5, 7.5, 7.5, 2.5}`. -/
theorem claim4Counterexample :
    timingMinutes 1 = [10, 15, 15, 15, 5] ∧
    timingMinutes (1/2) = [5, 8, 8, 8, 3] ∧
    (timingMinutes (1/2)).map (fun i => (i : ℚ))
      ≠ (timingMinutes 1).map (fun i => (1/2 : ℚ) * i) := by
  refine ⟨?_, ?_, ?_⟩ <;> norm_num [timingMinutes, jsRound]

/-- C4 (amended): for every profile with a non-zero `sessionLengthHours`, the
generated plan's agenda section is built from exactly five time blocks computed
as `round(len*10), round(len*15), round(len*15), round(len*15), round(len*5)`;
for a 1-hour session they equal `{10,15,15,15,5}`, and the *pre-rounding*
minute values scale linearly with `sessionLengthHours` (the rounded integers
themselves need not, see the counterexample). -/
theorem claim4AgendaBlocks (p : ClassProfile) (f : Option SessionFeedback) (n : Nat)
    (hlen : p.sessionLengthHours.toRat ≠ 0) :
    makePlanMarkdown p f n = planHeaderStr p f n ++
        mdBlock "Agenda (Suggested Timing)" (timingLines p.sessionLengthHours.toRat) ++
        planSectionsStr p f n ∧
    timingMinutes p.sessionLengthHours.toRat
        = (preMinutes p.sessionLengthHours.toRat).map jsRound ∧
    preMinutes p.sessionLengthHours.toRat
        = (preMinutes 1).map (fun q => p.sessionLengthHours.toRat * q) ∧
    timingMinutes 1 = [10, 15, 15, 15, 5] := by
  refine ⟨?_, rfl, ?_, ?_⟩
  · unfold makePlanMarkdown
    rw [if_neg hlen]
  · simp only [preMinutes, List.map]
    norm_num
  · norm_num [timingMinutes, jsRound]

/-- Witness for C4 (amended) at the Robotics profile (1-hour sessions). -/
theorem claim4AgendaBlocksWitness :
    makePlanMarkdown pfRobotics none 1 = planHeaderStr pfRobotics none 1 ++
        mdBlock "Agenda (Suggested Timing)" (timingLines pfRobotics.sessionLengthHours.toRat) ++
        planSectionsStr pfRobotics none 1 ∧
    timingMinutes pfRobotics.sessionLengthHours.toRat
        = (preMinutes pfRobotics.sessionLengthHours.toRat).map jsRound ∧
    preMinutes pfRobotics.sessionLengthHours.toRat
        = (preMinutes 1).map (fun q => pfRobotics.sessionLengthHours.toRat * q) ∧
    timingMinutes 1 = [10, 15, 15, 15, 5] :=
  claim4AgendaBlocks pfRobotics none 1
    (by norm_num [pfRobotics, newEmptyProfile, JNum.toRat])

/-- C10: `makePlanMarkdown` is deterministic and depends on nothing but the
profile, the feedback record and the session number: two `makePlan` calls with
equal such inputs produce identical plan text, whatever the (timestamp) clock
says at each call. -/
theorem claim10Deterministic (p p' : ClassProfile) (f f' : Option SessionFeedback)
    (n n' : Nat) (now now' : String) (hp : p = p') (hf : f = f') (hn : n = n') :
    (makePlan p f n now).planMd = (makePlan p' f' n' now').planMd := by
  subst hp
  subst hf
  subst hn
  rfl

/-- Witness for C10 at concrete inputs with two different timestamps. -/
theorem claim10DeterministicWitness :
    (makePlan pfRobotics none 1 "t1").planMd = (makePlan pfRobotics none 1 "t2").planMd :=
  claim10Deterministic pfRobotics pfRobotics none none 1 1 "t1" "t2" rfl rfl rfl

/-- C1 (code behaviour at the failing input): running the end-to-end example
(`pfRobotics`, generate plan 1, submit feedback `{excitedCount:1,
digestible:"no"}`) on the embedded handlers shows: the feedback *is* attached
to the most recent record and a third generation *is* refused, but the plan of
session 2 is generated from the *stale* snapshot — `run?.sessions.at(-1)?.feedback`
is still `none` when `generateNextPlan()` runs inside
`submitFeedbackAndGenerate` — so its signals come from *no* feedback:
`needsMoreScaffold` is `false` in session 2's plan even though deriving from
the just-recorded feedback would make it `true` (the claim's expectation). -/
theorem claim1StaleFeedback :
    (generateNextPlan stRobotics "t1").1.runs.map (fun r => r.sessions.length) = [1] ∧
    stRoboticsFinal.runs.map (fun r => r.sessions.map (fun s => s.feedback))
      = [[some fbRobotics, none]] ∧
    stRoboticsFinal.runs.map (fun r => r.sessions.map (fun s => s.planMd))
      = [[makePlanMarkdown pfRobotics none 1, makePlanMarkdown pfRobotics none 2]] ∧
    (deriveSignals pfRobotics (some fbRobotics) 2).needsMoreScaffold = true ∧
    (deriveSignals pfRobotics none 2).needsMoreScaffold = false ∧
    (deriveSignals pfRobotics none 2).needsMoreEngagement = true ∧
    generateNextPlan stRoboticsFinal "t3" = (stRoboticsFinal, [totalAlert]) := by
  refine ⟨rfl, rfl, rfl, rfl, rfl, ?_, rfl⟩
  rw [needsMoreEngagement_eq, decide_eq_true_eq]
  show (((0 : Nat) : ℚ) / ((max 1 4 : Nat) : ℚ)) < 1/2
  norm_num

/-! ### Correctness of the JSON round trip -/

theorem digitChar_isDigit {d : Nat} (h : d < 10) : (digitChar d).isDigit = true := by
  interval_cases d <;> rfl

theorem digitChar_toNat {d : Nat} (h : d < 10) : (digitChar d).toNat = 48 + d := by
  interval_cases d <;> rfl

theorem charsVal_replicate_zero : ∀ (k : Nat) (ds : List Char),
    charsVal (List.replicate k '0' ++ ds) = charsVal ds := by
  intro k
  induction k with
  | zero => intro ds; rfl
  | succ k ih => intro ds; exact ih ds

theorem foldr_digitChar_ofDigits : ∀ (L : List Nat), (∀ d ∈ L, d < 10) →
    List.foldr (fun d y => 10 * y + ((digitChar d).toNat - 48)) 0 L = Nat.ofDigits 10 L := by
  intro L
  induction L with
  | nil => intro _; simp [Nat.ofDigits_nil]
  | cons d t ih =>
    intro hall
    rw [List.foldr_cons, ih (fun x hx => hall x (List.mem_cons_of_mem _ hx)), Nat.ofDigits_cons]
    have hd : d < 10 := hall d (List.mem_cons_self _ _)
    rw [digitChar_toNat hd]
    omega

theorem charsVal_natToChars (n : Nat) : charsVal (natToChars n) = n := by
  by_cases h : n = 0
  · subst h; rfl
  · unfold natToChars charsVal
    rw [if_neg h, List.foldl_reverse, List.foldr_map]
    have := foldr_digitChar_ofDigits (Nat.digits 10 n)
      (fun d hd => Nat.digits_lt_base (by norm_num) hd)
    calc List.foldr (fun x y => 10 * y + ((digitChar x).toNat - 48)) 0 (Nat.digits 10 n)
        = Nat.ofDigits 10 (Nat.digits 10 n) := this
      _ = n := by exact_mod_cast Nat.ofDigits_digits 10 n

theorem natToChars_ne_nil (n : Nat) : natToChars n ≠ [] := by
  unfold natToChars
  by_cases h : n = 0
  · simp [h]
  · rw [if_neg h]
    simp [Nat.digits_ne_nil_iff_ne_zero, h]

theorem natToChars_digits (n : Nat) : ∀ c ∈ natToChars n, c.isDigit = true := by
  intro c hc
  unfold natToChars at hc
  by_cases h : n = 0
  · rw [if_pos h] at hc
    simp only [List.mem_singleton] at hc
    subst hc
    rfl
  · rw [if_neg h, List.mem_reverse] at hc
    obtain ⟨d, hd, rfl⟩ := List.mem_map.mp hc
    exact digitChar_isDigit (Nat.digits_lt_base (by norm_num) hd)

theorem takeWhile_digits_append : ∀ (ds rest : List Char),
    (∀ c ∈ ds, c.isDigit = true) → (∀ c, rest.head? = some c → c.isDigit = false) →
    (ds ++ rest).takeWhile (fun c => c.isDigit) = ds ∧
    (ds ++ rest).dropWhile (fun c => c.isDigit) = rest := by
  intro ds
  induction ds with
  | nil =>
    intro rest _ hrest
    cases rest with
    | nil => exact ⟨rfl, rfl⟩
    | cons c t =>
      have hc := hrest c rfl
      constructor
      · simp [List.takeWhile_cons, hc]
      · simp [List.dropWhile_cons, hc]
  | cons d ds ih =>
    intro rest hds hrest
    have hd : d.isDigit = true := hds d (List.mem_cons_self _ _)
    have hih := ih rest (fun c hc => hds c (List.mem_cons_of_mem _ hc)) hrest
    constructor
    · simp only [List.cons_append, List.takeWhile_cons, hd]
      rw [hih.1]
      simp
    · simp only [List.cons_append, List.dropWhile_cons, hd]
      rw [hih.2]
      simp

theorem head_not_dot {rest : List Char} (hb : numBoundary rest) :
    ¬ rest.head? = some '.' := by
  cases rest with
  | nil => simp
  | cons c t =>
    intro h
    simp only [List.head?_cons, Option.some.injEq] at h
    exact (hb c rfl).2.1 h

theorem natToChars_head_ne_zero {n : Nat} (hn : n ≠ 0) :
    ∀ c, (natToChars n).head? = some c → c ≠ '0' := by
  intro c hc
  have hnil : Nat.digits 10 n ≠ [] := Nat.digits_ne_nil_iff_ne_zero.mpr hn
  unfold natToChars at hc
  rw [if_neg hn, List.head?_reverse, List.getLast?_map,
    List.getLast?_eq_getLast _ hnil, Option.map_some'] at hc
  rw [Option.some.injEq] at hc
  subst hc
  have hd0 : (Nat.digits 10 n).getLast hnil ≠ 0 := Nat.getLast_digit_ne_zero 10 hn
  have hd10 : (Nat.digits 10 n).getLast hnil < 10 :=
    Nat.digits_lt_base (by norm_num) (List.getLast_mem hnil)
  have hgen : ∀ k : Fin 10, k.val ≠ 0 → digitChar k.val ≠ '0' := by decide
  exact hgen ⟨(Nat.digits 10 n).getLast hnil, hd10⟩ hd0

theorem natToChars_not_leading_zero (n : Nat) :
    ¬((natToChars n).head? = some '0' ∧ 1 < (natToChars n).length) := by
  rintro ⟨hh, hl⟩
  by_cases hn : n = 0
  · subst hn
    rw [show natToChars 0 = ['0'] from rfl] at hl
    simp at hl
  · exact natToChars_head_ne_zero hn '0' hh rfl

theorem head_not_exp {rest : List Char} (hb : numBoundary rest) :
    ¬(rest.head? = some 'e' ∨ rest.head? = some 'E') := by
  intro h
  cases rest with
  | nil => rcases h with h | h <;> exact Option.noConfusion h
  | cons c t =>
    rcases h with h | h
    · rw [List.head?_cons, Option.some.injEq] at h
      subst h
      exact absurd rfl (hb 'e' rfl).2.2.1
    · rw [List.head?_cons, Option.some.injEq] at h
      subst h
      exact absurd rfl (hb 'E' rfl).2.2.2

theorem parseExp_boundary (m : Int) (f : Nat) {rest : List Char} (hb : numBoundary rest) :
    parseExp m f rest = some (⟨m, f⟩, rest) := by
  unfold parseExp
  rw [if_neg (head_not_exp hb)]

theorem parseNumBody_numBody (n e : Nat) (neg : Bool) (rest : List Char)
    (hb : numBoundary rest) :
    parseNumBody neg (numBody n e ++ rest) = some (⟨intOfSign neg n, e⟩, rest) := by
  have hne := natToChars_ne_nil n
  have hdig := natToChars_digits n
  have hval := charsVal_natToChars n
  have hbd : ∀ c, rest.head? = some c → c.isDigit = false := fun c hc => (hb c hc).1
  by_cases he : e = 0
  · subst he
    rw [show numBody n 0 = natToChars n from by unfold numBody; rw [if_pos rfl]]
    have hsplit := takeWhile_digits_append (natToChars n) rest hdig hbd
    simp only [parseNumBody]
    rw [hsplit.1, hsplit.2, if_neg hne, if_neg (natToChars_not_leading_zero n),
      if_neg (head_not_dot hb), hval]
    exact parseExp_boundary _ _ hb
  · unfold numBody
    rw [if_neg he]
    by_cases hlen : (natToChars n).length ≤ e
    · rw [if_pos hlen]
      have hdigall : ∀ c ∈ List.replicate (e - (natToChars n).length) '0' ++ natToChars n,
          c.isDigit = true := by
        intro c hc
        rcases List.mem_append.mp hc with h | h
        · rw [List.eq_of_mem_replicate h]; rfl
        · exact hdig c h
      have hsplit := takeWhile_digits_append
        (List.replicate (e - (natToChars n).length) '0' ++ natToChars n) rest hdigall hbd
      have hfne : List.replicate (e - (natToChars n).length) '0' ++ natToChars n ≠ [] := by
        intro h
        exact hne (List.append_eq_nil.mp h).2
      simp only [parseNumBody, List.cons_append, List.takeWhile_cons, List.dropWhile_cons]
      rw [show ('0' : Char).isDigit = true from rfl, show ('.' : Char).isDigit = false from rfl]
      simp only [if_true, if_false, Bool.false_eq_true, List.takeWhile_cons,
        show (('.' : Char).isDigit = true) = False from by simp]
      rw [List.append_assoc] at hsplit ⊢
      simp only [List.head?_cons, List.tail_cons]
      rw [if_neg (by simp : ¬(['0'] : List Char) = [])]
      rw [if_neg (show ¬(True ∧ 1 < (['0'] : List Char).length) from by simp)]
      simp only [if_true]
      rw [hsplit.1, hsplit.2, if_neg hfne]
      have hv : charsVal (['0'] ++
          (List.replicate (e - (natToChars n).length) '0' ++ natToChars n)) = n := by
        rw [show (['0'] : List Char) ++
            (List.replicate (e - (natToChars n).length) '0' ++ natToChars n)
            = List.replicate (1 + (e - (natToChars n).length)) '0' ++ natToChars n from by
          rw [List.replicate_add]
          simp]
        rw [charsVal_replicate_zero, hval]
      rw [hv]
      have hl : (List.replicate (e - (natToChars n).length) '0' ++ natToChars n).length = e := by
        simp only [List.length_append, List.length_replicate]
        omega
      rw [hl]
      exact parseExp_boundary _ _ hb
    · rw [if_neg hlen]
      have hlpos : 0 < (natToChars n).length := List.length_pos.mpr hne
      have htake : ∀ c ∈ (natToChars n).take ((natToChars n).length - e), c.isDigit = true :=
        fun c hc => hdig c (List.take_subset _ _ hc)
      have hdrop : ∀ c ∈ (natToChars n).drop ((natToChars n).length - e), c.isDigit = true :=
        fun c hc => hdig c (List.drop_subset _ _ hc)
      have hsplit1 := takeWhile_digits_append ((natToChars n).take ((natToChars n).length - e))
        ('.' :: ((natToChars n).drop ((natToChars n).length - e) ++ rest)) htake
        (by intro c hc
            simp only [List.head?_cons, Option.some.injEq] at hc
            subst hc
            rfl)
      have hsplit2 := takeWhile_digits_append ((natToChars n).drop ((natToChars n).length - e))
        rest hdrop hbd
      have hassoc : ((natToChars n).take ((natToChars n).length - e) ++
            '.' :: (natToChars n).drop ((natToChars n).length - e)) ++ rest
          = (natToChars n).take ((natToChars n).length - e) ++
            ('.' :: ((natToChars n).drop ((natToChars n).length - e) ++ rest)) := by
        simp [List.append_assoc]
      rw [hassoc]
      simp only [parseNumBody]
      rw [hsplit1.1, hsplit1.2]
      have htne : (natToChars n).take ((natToChars n).length - e) ≠ [] := by
        refine List.length_pos.mp ?_
        rw [List.length_take]
        omega
      rw [if_neg htne]
      have hn0 : n ≠ 0 := by
        intro h0
        rw [h0, show natToChars 0 = ['0'] from rfl] at hlen
        simp only [List.length_singleton] at hlen
        omega
      have hguard : ¬(((natToChars n).take ((natToChars n).length - e)).head? = some '0' ∧
          1 < ((natToChars n).take ((natToChars n).length - e)).length) := by
        rintro ⟨hh, _⟩
        obtain ⟨k, hk⟩ : ∃ k, (natToChars n).length - e = k + 1 :=
          ⟨(natToChars n).length - e - 1, by omega⟩
        rcases hcs : natToChars n with _ | ⟨c0, t0⟩
        · exact absurd hcs hne
        · rw [hk, hcs, List.take_succ_cons, List.head?_cons] at hh
          exact natToChars_head_ne_zero hn0 '0' (by rw [hcs, List.head?_cons, hh]) rfl
      rw [if_neg hguard]
      simp only [List.head?_cons, List.tail_cons, if_true]
      rw [hsplit2.1, hsplit2.2]
      have hdne : (natToChars n).drop ((natToChars n).length - e) ≠ [] := by
        refine List.length_pos.mp ?_
        rw [List.length_drop]
        omega
      rw [if_neg hdne, List.take_append_drop, hval]
      have hl : ((natToChars n).drop ((natToChars n).length - e)).length = e := by
        rw [List.length_drop]
        omega
      rw [hl]
      exact parseExp_boundary _ _ hb

theorem numBody_head_digit (n e : Nat) :
    ∃ c cs', numBody n e = c :: cs' ∧ c.isDigit = true := by
  have hne := natToChars_ne_nil n
  have hdig := natToChars_digits n
  unfold numBody
  by_cases he : e = 0
  · rw [if_pos he]
    rcases hcs : natToChars n with _ | ⟨c, t⟩
    · exact absurd hcs hne
    · exact ⟨c, t, rfl, hdig c (by rw [hcs]; exact List.mem_cons_self _ _)⟩
  · rw [if_neg he]
    by_cases hlen : (natToChars n).length ≤ e
    · rw [if_pos hlen]
      exact ⟨'0', _, rfl, rfl⟩
    · rw [if_neg hlen]
      rcases hcs : natToChars n with _ | ⟨c, t⟩
      · exact absurd hcs hne
      · have hk : ∃ k, (natToChars n).length - e = k + 1 := by
          refine ⟨(natToChars n).length - e - 1, ?_⟩
          omega
        obtain ⟨k, hk⟩ := hk
        rw [hcs] at hk
        rw [hk, List.take_succ_cons]
        exact ⟨c, _, rfl, hdig c (by rw [hcs]; exact List.mem_cons_self _ _)⟩

theorem parseNum_roundtrip (jn : JNum) (rest : List Char) (hb : numBoundary rest) :
    parseNum (numToChars jn ++ rest) = some (jn, rest) := by
  obtain ⟨m, e⟩ := jn
  unfold numToChars
  dsimp only
  by_cases hm : m < 0
  · rw [if_pos hm, List.cons_append,
      show parseNum ('-' :: (numBody m.natAbs e ++ rest))
        = parseNumBody true (numBody m.natAbs e ++ rest) from by
        simp [parseNum],
      parseNumBody_numBody _ _ _ _ hb]
    have : intOfSign true m.natAbs = m := by
      unfold intOfSign
      rw [if_pos rfl]
      omega
    rw [this]
  · rw [if_neg hm]
    obtain ⟨c, cs', hbody, hcdig⟩ := numBody_head_digit m.natAbs e
    have hcne : ¬ c = '-' := by
      intro h
      subst h
      exact absurd hcdig (by decide)
    rw [hbody, List.cons_append,
      show parseNum (c :: (cs' ++ rest)) = parseNumBody false (c :: (cs' ++ rest)) from by
        simp [parseNum, hcne],
      ← List.cons_append, ← hbody, parseNumBody_numBody _ _ _ _ hb]
    have : intOfSign false m.natAbs = m := by
      unfold intOfSign
      rw [if_neg (by simp)]
      omega
    rw [this]

theorem fromHexDigit_hexDigit {k : Nat} (h : k < 16) : fromHexDigit (hexDigit k) = some k := by
  interval_cases k <;> rfl

theorem parseStringBody_cons_ordinary (f : Nat) (c : Char) (x : List Char)
    (h1 : ¬ c = '"') (h2 : ¬ c = '\\') (h3 : ¬ c.toNat < 32) :
    parseStringBody (f + 1) (c :: x) = (parseStringBody f x).map (fun p => (c :: p.1, p.2)) := by
  simp only [parseStringBody]
  rw [if_neg h1, if_neg h2, if_neg h3]

theorem parseStringBody_escape : ∀ (cs : List Char) (fuel : Nat) (rest : List Char),
    cs.length < fuel →
    parseStringBody fuel (escapeList cs ++ '"' :: rest) = some (cs, rest) := by
  intro cs
  induction cs with
  | nil =>
    intro fuel rest hf
    obtain ⟨f, rfl⟩ : ∃ f, fuel = f + 1 := ⟨fuel - 1, by omega⟩
    rfl
  | cons c t ih =>
    intro fuel rest hf
    obtain ⟨f, rfl⟩ : ∃ f, fuel = f + 1 := ⟨fuel - 1, by omega⟩
    have hf' : t.length < f := by
      simp only [List.length_cons] at hf
      omega
    show parseStringBody (f + 1) ((escapeChar c ++ escapeList t) ++ '"' :: rest) = _
    rw [List.append_assoc]
    unfold escapeChar
    by_cases h1 : c = '"'
    · subst h1
      rw [if_pos rfl]
      simp only [List.cons_append, List.nil_append]
      rw [show parseStringBody (f + 1) ('\\' :: '"' :: (escapeList t ++ '"' :: rest))
          = (parseStringBody f (escapeList t ++ '"' :: rest)).map
              (fun p => ('"' :: p.1, p.2)) from rfl, ih f rest hf']
      rfl
    rw [if_neg h1]
    by_cases h2 : c = '\\'
    · subst h2
      rw [if_pos rfl]
      simp only [List.cons_append, List.nil_append]
      rw [show parseStringBody (f + 1) ('\\' :: '\\' :: (escapeList t ++ '"' :: rest))
          = (parseStringBody f (escapeList t ++ '"' :: rest)).map
              (fun p => ('\\' :: p.1, p.2)) from rfl, ih f rest hf']
      rfl
    rw [if_neg h2]
    by_cases h3 : c = '\n'
    · subst h3
      rw [if_pos rfl]
      simp only [List.cons_append, List.nil_append]
      rw [show parseStringBody (f + 1) ('\\' :: 'n' :: (escapeList t ++ '"' :: rest))
          = (parseStringBody f (escapeList t ++ '"' :: rest)).map
              (fun p => ('\n' :: p.1, p.2)) from rfl, ih f rest hf']
      rfl
    rw [if_neg h3]
    by_cases h4 : c = '\r'
    · subst h4
      rw [if_pos rfl]
      simp only [List.cons_append, List.nil_append]
      rw [show parseStringBody (f + 1) ('\\' :: 'r' :: (escapeList t ++ '"' :: rest))
          = (parseStringBody f (escapeList t ++ '"' :: rest)).map
              (fun p => ('\r' :: p.1, p.2)) from rfl, ih f rest hf']
      rfl
    rw [if_neg h4]
    by_cases h5 : c = '\t'
    · subst h5
      rw [if_pos rfl]
      simp only [List.cons_append, List.nil_append]
      rw [show parseStringBody (f + 1) ('\\' :: 't' :: (escapeList t ++ '"' :: rest))
          = (parseStringBody f (escapeList t ++ '"' :: rest)).map
              (fun p => ('\t' :: p.1, p.2)) from rfl, ih f rest hf']
      rfl
    rw [if_neg h5]
    by_cases h6 : c = '\x08'
    · subst h6
      rw [if_pos rfl]
      simp only [List.cons_append, List.nil_append]
      rw [show parseStringBody (f + 1) ('\\' :: 'b' :: (escapeList t ++ '"' :: rest))
          = (parseStringBody f (escapeList t ++ '"' :: rest)).map
              (fun p => ('\x08' :: p.1, p.2)) from rfl, ih f rest hf']
      rfl
    rw [if_neg h6]
    by_cases h7 : c = '\x0c'
    · subst h7
      rw [if_pos rfl]
      simp only [List.cons_append, List.nil_append]
      rw [show parseStringBody (f + 1) ('\\' :: 'f' :: (escapeList t ++ '"' :: rest))
          = (parseStringBody f (escapeList t ++ '"' :: rest)).map
              (fun p => ('\x0c' :: p.1, p.2)) from rfl, ih f rest hf']
      rfl
    rw [if_neg h7]
    by_cases h8 : c.toNat < 32
    · rw [if_pos h8]
      simp only [List.cons_append, List.nil_append]
      rw [show parseStringBody (f + 1) ('\\' :: 'u' :: '0' :: '0' ::
            hexDigit (c.toNat / 16) :: hexDigit (c.toNat % 16) :: (escapeList t ++ '"' :: rest))
          = (match fromHexDigit '0', fromHexDigit '0',
                fromHexDigit (hexDigit (c.toNat / 16)), fromHexDigit (hexDigit (c.toNat % 16)) with
             | some a, some b, some hc, some d =>
               (parseStringBody f (escapeList t ++ '"' :: rest)).map
                 (fun p => (Char.ofNat (((a * 16 + b) * 16 + hc) * 16 + d) :: p.1, p.2))
             | _, _, _, _ => none) from rfl]
      rw [fromHexDigit_hexDigit (show c.toNat / 16 < 16 by omega),
        fromHexDigit_hexDigit (show c.toNat % 16 < 16 by omega)]
      show (parseStringBody f (escapeList t ++ '"' :: rest)).map
          (fun p => (Char.ofNat (((0 * 16 + 0) * 16 + c.toNat / 16) * 16 + c.toNat % 16)
            :: p.1, p.2)) = _
      rw [ih f rest hf']
      have harith : ((0 * 16 + 0) * 16 + c.toNat / 16) * 16 + c.toNat % 16 = c.toNat := by omega
      rw [harith, Char.ofNat_toNat]
      rfl
    · rw [if_neg h8]
      show parseStringBody (f + 1) (c :: (escapeList t ++ '"' :: rest)) = _
      rw [parseStringBody_cons_ordinary f c _ h1 h2 h8, ih f rest hf']
      rfl

theorem escapeChar_length_pos (c : Char) : 1 ≤ (escapeChar c).length := by
  unfold escapeChar
  split_ifs <;> simp

theorem escapeList_length_ge : ∀ cs : List Char, cs.length ≤ (escapeList cs).length := by
  intro cs
  induction cs with
  | nil => simp [escapeList]
  | cons c t ih =>
    show (c :: t).length ≤ (escapeChar c ++ escapeList t).length
    rw [List.length_cons, List.length_append]
    have := escapeChar_length_pos c
    omega

theorem parseStr_escape (cs rest : List Char) :
    parseStr (escapeList cs ++ '"' :: rest) = some (cs, rest) := by
  unfold parseStr
  refine parseStringBody_escape cs _ rest ?_
  rw [List.length_append, List.length_cons]
  have := escapeList_length_ge cs
  omega

theorem skipWs_cons_of {c : Char} {cs : List Char} (h : isJsonWs c = false) :
    skipWs (c :: cs) = c :: cs := by
  simp [skipWs, List.dropWhile_cons, h]

theorem not_ws_of_isDigit {c : Char} (h : c.isDigit = true) : isJsonWs c = false := by
  by_contra hw
  simp only [Bool.not_eq_false, isJsonWs, Bool.or_eq_true, decide_eq_true_eq] at hw
  rcases hw with ((rfl | rfl) | rfl) | rfl <;> exact absurd h (by decide)

theorem ne_of_isDigit {c c' : Char} (h : c.isDigit = true) (h' : c'.isDigit = false) :
    ¬ c = c' := by
  rintro rfl
  rw [h] at h'
  exact absurd h' (by decide)

theorem numToChars_head (n : JNum) : ∃ c cs', numToChars n = c :: cs' ∧
    (c = '-' ∨ c.isDigit = true) := by
  unfold numToChars
  by_cases hm : n.m < 0
  · rw [if_pos hm]
    exact ⟨'-', _, rfl, Or.inl rfl⟩
  · rw [if_neg hm]
    obtain ⟨c, cs', hbody, hdig⟩ := numBody_head_digit n.m.natAbs n.e
    exact ⟨c, cs', hbody, Or.inr hdig⟩

theorem stringifyVal_head (j : Json) : ∃ c cs', stringifyVal j = c :: cs' ∧
    isJsonWs c = false ∧ ¬ c = ']' ∧ ¬ c = '\x7d' := by
  cases j with
  | null => exact ⟨'n', _, rfl, rfl, by decide, by decide⟩
  | bool b =>
    cases b with
    | false => exact ⟨'f', _, rfl, rfl, by decide, by decide⟩
    | true => exact ⟨'t', _, rfl, rfl, by decide, by decide⟩
  | num n =>
    obtain ⟨c, cs', hh, hc⟩ := numToChars_head n
    refine ⟨c, cs', hh, ?_, ?_, ?_⟩
    · rcases hc with rfl | hd
      · rfl
      · exact not_ws_of_isDigit hd
    · rcases hc with rfl | hd
      · decide
      · exact ne_of_isDigit hd (by decide)
    · rcases hc with rfl | hd
      · decide
      · exact ne_of_isDigit hd (by decide)
  | str s => exact ⟨'"', _, rfl, rfl, by decide, by decide⟩
  | arr l => exact ⟨'[', _, rfl, rfl, by decide, by decide⟩
  | obj l => exact ⟨'\x7b', _, rfl, rfl, by decide, by decide⟩

theorem stringifyElems_head (x : Json) (t : List Json) :
    ∃ c cs', stringifyElems (x :: t) = c :: cs' ∧ isJsonWs c = false ∧ ¬ c = ']' := by
  obtain ⟨c, cs', hh, hws, hbr, _⟩ := stringifyVal_head x
  cases t with
  | nil => exact ⟨c, cs', by rw [show stringifyElems [x] = stringifyVal x from rfl, hh], hws, hbr⟩
  | cons y t2 =>
    refine ⟨c, cs' ++ ',' :: stringifyElems (y :: t2), ?_, hws, hbr⟩
    rw [show stringifyElems (x :: y :: t2)
        = stringifyVal x ++ ',' :: stringifyElems (y :: t2) from rfl, hh, List.cons_append]

theorem parseValWith_other (pe : List Char → Option (List Json × List Char))
    (pm : List Char → Option (List (String × Json) × List Char)) (c : Char) (x : List Char)
    (h1 : ¬c = 'n') (h2 : ¬c = 't') (h3 : ¬c = 'f') (h4 : ¬c = '"') (h5 : ¬c = '[')
    (h6 : ¬c = '\x7b') :
    parseValWith pe pm (c :: x) = (parseNum (c :: x)).map (fun p => (Json.num p.1, p.2)) := by
  simp only [parseValWith]
  rw [if_neg h1, if_neg h2, if_neg h3, if_neg h4, if_neg h5, if_neg h6]

theorem sizeV_pos (j : Json) : 1 ≤ sizeV j := by
  cases j <;> simp [sizeV]

mutual

theorem sizeV_le_len : ∀ j : Json, sizeV j ≤ (stringifyVal j).length
  | Json.null => by simp [sizeV, stringifyVal]
  | Json.bool b => by cases b <;> simp [sizeV, stringifyVal]
  | Json.num n => by
    obtain ⟨c, cs', hh, _⟩ := numToChars_head n
    simp only [sizeV, stringifyVal, hh]
    simp
  | Json.str s => by simp [sizeV, stringifyVal]
  | Json.arr l => by
    have := sizeE_le_len l
    simp only [sizeV, stringifyVal, List.length_cons, List.length_append, List.length_singleton]
    omega
  | Json.obj l => by
    have := sizeM_le_len l
    simp only [sizeV, stringifyVal, List.length_cons, List.length_append, List.length_singleton]
    omega

theorem sizeE_le_len : ∀ l : List Json, sizeE l ≤ (stringifyElems l).length + 1
  | [] => by simp [sizeE, stringifyElems]
  | [x] => by
    have := sizeV_le_len x
    simp only [sizeE, stringifyElems]
    omega
  | x :: y :: t => by
    have h1 := sizeV_le_len x
    have h2 := sizeE_le_len (y :: t)
    simp only [sizeE] at h2
    simp only [sizeE, show stringifyElems (x :: y :: t)
      = stringifyVal x ++ ',' :: stringifyElems (y :: t) from rfl, List.length_append,
      List.length_cons]
    omega

theorem sizeM_le_len : ∀ l : List (String × Json), sizeM l ≤ (stringifyMembers l).length + 1
  | [] => by simp [sizeM, stringifyMembers]
  | [(k, v)] => by
    have := sizeV_le_len v
    simp only [sizeM, show stringifyMembers [(k, v)]
      = '"' :: (escapeList k.data ++ '"' :: ':' :: stringifyVal v) from rfl, List.length_cons,
      List.length_append]
    omega
  | (k, v) :: m :: t => by
    have h1 := sizeV_le_len v
    have h2 := sizeM_le_len (m :: t)
    simp only [sizeM] at h2
    simp only [sizeM, show stringifyMembers ((k, v) :: m :: t)
      = '"' :: (escapeList k.data ++ '"' :: ':' :: stringifyVal v) ++
        ',' :: stringifyMembers (m :: t) from rfl, List.length_cons, List.length_append]
    omega

end

theorem stringifyMembers_head (k : String) (v : Json) (t : List (String × Json)) :
    ∃ cs', stringifyMembers ((k, v) :: t) = '"' :: cs' := by
  cases t with
  | nil => exact ⟨_, rfl⟩
  | cons m t2 =>
    refine ⟨(escapeList k.data ++ '"' :: ':' :: stringifyVal v) ++ ',' :: stringifyMembers (m :: t2), ?_⟩
    rw [show stringifyMembers ((k, v) :: m :: t2)
        = ('"' :: (escapeList k.data ++ '"' :: ':' :: stringifyVal v)) ++
          ',' :: stringifyMembers (m :: t2) from rfl, List.cons_append]

theorem parse_ok : ∀ fuel : Nat,
    (∀ (j : Json) (rest : List Char), sizeV j ≤ fuel →
      (∀ n, j = Json.num n → numBoundary rest) →
      parseVal fuel (stringifyVal j ++ rest) = some (j, rest)) ∧
    (∀ (l : List Json) (rest : List Char), l ≠ [] → sizeE l ≤ fuel →
      parseElems fuel (stringifyElems l ++ ']' :: rest) = some (l, rest)) ∧
    (∀ (l : List (String × Json)) (rest : List Char), l ≠ [] → sizeM l ≤ fuel →
      parseMembers fuel (stringifyMembers l ++ '\x7d' :: rest) = some (l, rest)) := by
  intro fuel
  induction fuel with
  | zero =>
    refine ⟨?_, ?_, ?_⟩
    · intro j rest hsz _
      exact absurd hsz (by have := sizeV_pos j; omega)
    · intro l rest hne hsz
      cases l with
      | nil => exact absurd rfl hne
      | cons x t => exact absurd hsz (by simp only [sizeE]; omega)
    · intro l rest hne hsz
      cases l with
      | nil => exact absurd rfl hne
      | cons x t =>
        obtain ⟨k, v⟩ := x
        exact absurd hsz (by simp only [sizeM]; omega)
  | succ fuel ih =>
    obtain ⟨ihV, ihE, ihM⟩ := ih
    refine ⟨?_, ?_, ?_⟩
    · intro j rest hsz hnum
      obtain ⟨c0, cs0, hh, hws0, _, _⟩ := stringifyVal_head j
      have hskip : skipWs (stringifyVal j ++ rest) = stringifyVal j ++ rest := by
        conv_lhs => rw [hh, List.cons_append]
        rw [skipWs_cons_of hws0, ← List.cons_append, ← hh]
      rw [show parseVal (fuel + 1) (stringifyVal j ++ rest)
          = parseValWith (fun cs2 => parseElems fuel cs2) (fun cs2 => parseMembers fuel cs2)
              (skipWs (stringifyVal j ++ rest)) from rfl, hskip]
      clear hskip hh
      cases j with
      | null => rfl
      | bool b => cases b <;> rfl
      | str s =>
        show (parseStr ((escapeList s.data ++ ['"']) ++ rest)).map
            (fun p => (Json.str (String.mk p.1), p.2)) = some (Json.str s, rest)
        rw [List.append_assoc]
        simp only [List.singleton_append]
        rw [parseStr_escape]
        cases s
        rfl
      | num n =>
        have hb : numBoundary rest := hnum n rfl
        obtain ⟨c, cs', hh2, hc⟩ := numToChars_head n
        have hf1 : ¬c = 'n' := by
          rcases hc with rfl | hd
          · decide
          · exact ne_of_isDigit hd (by decide)
        have hf2 : ¬c = 't' := by
          rcases hc with rfl | hd
          · decide
          · exact ne_of_isDigit hd (by decide)
        have hf3 : ¬c = 'f' := by
          rcases hc with rfl | hd
          · decide
          · exact ne_of_isDigit hd (by decide)
        have hf4 : ¬c = '"' := by
          rcases hc with rfl | hd
          · decide
          · exact ne_of_isDigit hd (by decide)
        have hf5 : ¬c = '[' := by
          rcases hc with rfl | hd
          · decide
          · exact ne_of_isDigit hd (by decide)
        have hf6 : ¬c = '\x7b' := by
          rcases hc with rfl | hd
          · decide
          · exact ne_of_isDigit hd (by decide)
        show parseValWith (fun cs2 => parseElems fuel cs2) (fun cs2 => parseMembers fuel cs2)
            (numToChars n ++ rest) = some (Json.num n, rest)
        rw [hh2, List.cons_append, parseValWith_other _ _ c _ hf1 hf2 hf3 hf4 hf5 hf6,
          ← List.cons_append, ← hh2, parseNum_roundtrip n rest hb]
        rfl
      | arr l =>
        cases l with
        | nil => rfl
        | cons x t =>
          obtain ⟨c, cs', hh2, hws, hbr⟩ := stringifyElems_head x t
          have hsze : sizeE (x :: t) ≤ fuel := by
            simp only [sizeV] at hsz
            omega
          show (let r1 := skipWs ((stringifyElems (x :: t) ++ [']']) ++ rest)
            if r1.head? = some ']' then some (Json.arr [], r1.tail)
            else (parseElems fuel r1).map (fun p => (Json.arr p.1, p.2)))
              = some (Json.arr (x :: t), rest)
          rw [List.append_assoc]
          simp only [List.singleton_append]
          have hskip2 : skipWs (stringifyElems (x :: t) ++ ']' :: rest)
              = stringifyElems (x :: t) ++ ']' :: rest := by
            conv_lhs => rw [hh2, List.cons_append]
            rw [skipWs_cons_of hws, ← List.cons_append, ← hh2]
          rw [hskip2]
          rw [if_neg (show ¬ ((stringifyElems (x :: t) ++ ']' :: rest).head? = some ']') from by
            rw [hh2, List.cons_append]
            simp [hbr])]
          rw [ihE (x :: t) rest (by simp) hsze]
          rfl
      | obj l =>
        cases l with
        | nil => rfl
        | cons kv t =>
          obtain ⟨k, v⟩ := kv
          obtain ⟨cs', hh2⟩ := stringifyMembers_head k v t
          have hszm : sizeM ((k, v) :: t) ≤ fuel := by
            simp only [sizeV] at hsz
            omega
          show (let r1 := skipWs ((stringifyMembers ((k, v) :: t) ++ ['\x7d']) ++ rest)
            if r1.head? = some '\x7d' then some (Json.obj [], r1.tail)
            else (parseMembers fuel r1).map (fun p => (Json.obj p.1, p.2)))
              = some (Json.obj ((k, v) :: t), rest)
          rw [List.append_assoc]
          simp only [List.singleton_append]
          have hskip2 : skipWs (stringifyMembers ((k, v) :: t) ++ '\x7d' :: rest)
              = stringifyMembers ((k, v) :: t) ++ '\x7d' :: rest := by
            conv_lhs => rw [hh2, List.cons_append]
            rw [skipWs_cons_of (show isJsonWs '"' = false from rfl), ← List.cons_append, ← hh2]
          rw [hskip2]
          rw [if_neg (show ¬ ((stringifyMembers ((k, v) :: t) ++ '\x7d' :: rest).head?
              = some '\x7d') from by
            rw [hh2, List.cons_append]
            simp)]
          rw [ihM ((k, v) :: t) rest (by simp) hszm]
          rfl
    · intro l rest hne hsz
      cases l with
      | nil => exact absurd rfl hne
      | cons x t =>
        have hszx : sizeV x ≤ fuel := by
          simp only [sizeE] at hsz
          omega
        cases t with
        | nil =>
          show (parseVal fuel (stringifyVal x ++ ']' :: rest)).bind (fun p =>
              let r1 := skipWs p.2
              if r1.head? = some ',' then
                (parseElems fuel r1.tail).map (fun q => (p.1 :: q.1, q.2))
              else if r1.head? = some ']' then some ([p.1], r1.tail)
              else none) = some ([x], rest)
          rw [ihV x (']' :: rest) hszx (by
            rintro n rfl
            intro cc hcc
            simp only [List.head?_cons, Option.some.injEq] at hcc
            subst hcc
            exact ⟨by decide, by decide, by decide, by decide⟩)]
          rfl
        | cons y t2 =>
          have hszt : sizeE (y :: t2) ≤ fuel := by
            simp only [sizeE] at hsz ⊢
            omega
          have hassoc : stringifyElems (x :: y :: t2) ++ ']' :: rest
              = stringifyVal x ++ (',' :: (stringifyElems (y :: t2) ++ ']' :: rest)) := by
            rw [show stringifyElems (x :: y :: t2)
                = stringifyVal x ++ ',' :: stringifyElems (y :: t2) from rfl]
            simp
          rw [hassoc]
          show (parseVal fuel (stringifyVal x ++
              (',' :: (stringifyElems (y :: t2) ++ ']' :: rest)))).bind (fun p =>
              let r1 := skipWs p.2
              if r1.head? = some ',' then
                (parseElems fuel r1.tail).map (fun q => (p.1 :: q.1, q.2))
              else if r1.head? = some ']' then some ([p.1], r1.tail)
              else none) = some (x :: y :: t2, rest)
          rw [ihV x _ hszx (by
            rintro n rfl
            intro cc hcc
            simp only [List.head?_cons, Option.some.injEq] at hcc
            subst hcc
            exact ⟨by decide, by decide, by decide, by decide⟩)]
          show (parseElems fuel (stringifyElems (y :: t2) ++ ']' :: rest)).map
              (fun q => (x :: q.1, q.2)) = some (x :: y :: t2, rest)
          rw [ihE (y :: t2) rest (by simp) hszt]
          rfl
    · intro l rest hne hsz
      cases l with
      | nil => exact absurd rfl hne
      | cons kv t =>
        obtain ⟨k, v⟩ := kv
        have hszv : sizeV v ≤ fuel := by
          simp only [sizeM] at hsz
          omega
        cases t with
        | nil =>
          have hassoc : stringifyMembers [(k, v)] ++ '\x7d' :: rest
              = '"' :: (escapeList k.data ++
                  '"' :: (':' :: (stringifyVal v ++ '\x7d' :: rest))) := by
            rw [show stringifyMembers [(k, v)]
                = '"' :: (escapeList k.data ++ '"' :: ':' :: stringifyVal v) from rfl]
            simp
          rw [hassoc]
          show (parseStr (escapeList k.data ++
              '"' :: (':' :: (stringifyVal v ++ '\x7d' :: rest)))).bind (fun kp =>
              let r1 := skipWs kp.2
              if r1.head? = some ':' then
                (parseVal fuel r1.tail).bind (fun vp =>
                  let r2 := skipWs vp.2
                  if r2.head? = some ',' then
                    (parseMembers fuel r2.tail).map
                      (fun q => ((String.mk kp.1, vp.1) :: q.1, q.2))
                  else if r2.head? = some '\x7d' then some ([(String.mk kp.1, vp.1)], r2.tail)
                  else none)
              else none) = some ([(k, v)], rest)
          rw [parseStr_escape]
          show (parseVal fuel (stringifyVal v ++ '\x7d' :: rest)).bind (fun vp =>
              let r2 := skipWs vp.2
              if r2.head? = some ',' then
                (parseMembers fuel r2.tail).map (fun q => ((String.mk k.data, vp.1) :: q.1, q.2))
              else if r2.head? = some '\x7d' then some ([(String.mk k.data, vp.1)], r2.tail)
              else none) = some ([(k, v)], rest)
          rw [ihV v ('\x7d' :: rest) hszv (by
            rintro n rfl
            intro cc hcc
            simp only [List.head?_cons, Option.some.injEq] at hcc
            subst hcc
            exact ⟨by decide, by decide, by decide, by decide⟩)]
          show some ([(String.mk k.data, v)], rest) = some ([(k, v)], rest)
          cases k
          rfl
        | cons m t2 =>
          obtain ⟨mk, mv⟩ := m
          have hszt : sizeM ((mk, mv) :: t2) ≤ fuel := by
            simp only [sizeM] at hsz ⊢
            omega
          have hassoc : stringifyMembers ((k, v) :: (mk, mv) :: t2) ++ '\x7d' :: rest
              = '"' :: (escapeList k.data ++ '"' :: (':' :: (stringifyVal v ++
                  (',' :: (stringifyMembers ((mk, mv) :: t2) ++ '\x7d' :: rest))))) := by
            rw [show stringifyMembers ((k, v) :: (mk, mv) :: t2)
                = ('"' :: (escapeList k.data ++ '"' :: ':' :: stringifyVal v)) ++
                  ',' :: stringifyMembers ((mk, mv) :: t2) from rfl]
            simp
          rw [hassoc]
          show (parseStr (escapeList k.data ++ '"' :: (':' :: (stringifyVal v ++
              (',' :: (stringifyMembers ((mk, mv) :: t2) ++ '\x7d' :: rest)))))).bind (fun kp =>
              let r1 := skipWs kp.2
              if r1.head? = some ':' then
                (parseVal fuel r1.tail).bind (fun vp =>
                  let r2 := skipWs vp.2
                  if r2.head? = some ',' then
                    (parseMembers fuel r2.tail).map
                      (fun q => ((String.mk kp.1, vp.1) :: q.1, q.2))
                  else if r2.head? = some '\x7d' then some ([(String.mk kp.1, vp.1)], r2.tail)
                  else none)
              else none) = some ((k, v) :: (mk, mv) :: t2, rest)
          rw [parseStr_escape]
          show (parseVal fuel (stringifyVal v ++
              (',' :: (stringifyMembers ((mk, mv) :: t2) ++ '\x7d' :: rest)))).bind (fun vp =>
              let r2 := skipWs vp.2
              if r2.head? = some ',' then
                (parseMembers fuel r2.tail).map (fun q => ((String.mk k.data, vp.1) :: q.1, q.2))
              else if r2.head? = some '\x7d' then some ([(String.mk k.data, vp.1)], r2.tail)
              else none) = some ((k, v) :: (mk, mv) :: t2, rest)
          rw [ihV v _ hszv (by
            rintro n rfl
            intro cc hcc
            simp only [List.head?_cons, Option.some.injEq] at hcc
            subst hcc
            exact ⟨by decide, by decide, by decide, by decide⟩)]
          show (parseMembers fuel (stringifyMembers ((mk, mv) :: t2) ++ '\x7d' :: rest)).map
              (fun q => ((String.mk k.data, v) :: q.1, q.2))
              = some ((k, v) :: (mk, mv) :: t2, rest)
          rw [ihM ((mk, mv) :: t2) rest (by simp) hszt]
          cases k
          rfl

theorem jsonParse_stringify (j : Json) : jsonParse (jsonStringify j) = some j := by
  have hV := (parse_ok ((stringifyVal j).length + 1)).1 j []
    (by have := sizeV_le_len j; omega)
    (fun _ _ c hc => Option.noConfusion (show (none : Option Char) = some c from hc))
  rw [List.append_nil] at hV
  unfold jsonParse
  rw [show (jsonStringify j).data = stringifyVal j from rfl, hV]
  rfl

theorem readBackStudent_encode (s : StudentDetail) :
    readBackStudent (encodeStudent s) = some s := rfl

theorem readBackStudents_encode : ∀ l : List StudentDetail,
    readBackStudents (l.map encodeStudent) = some l
  | [] => rfl
  | s :: t => by
    show (readBackStudent (encodeStudent s)).bind
        (fun s2 => (readBackStudents (t.map encodeStudent)).map (fun l2 => s2 :: l2))
        = some (s :: t)
    rw [readBackStudent_encode, readBackStudents_encode t]
    rfl

theorem readBackProfile_encode (p : ClassProfile) :
    readBackProfile (encodeProfile p) = some p := by
  show (readBackStudents (p.students.map encodeStudent)).map (fun students =>
      ({ subject := p.subject, expectation := p.expectation, totalSessions := p.totalSessions, sessionLengthHours := p.sessionLengthHours, numStudents := p.numStudents, ageRange := p.ageRange, students := students } : ClassProfile)) = some p
  rw [readBackStudents_encode]
  rfl

theorem readBackFeedback_encode (f : SessionFeedback) :
    readBackFeedback (encodeFeedback f) = some f := by
  obtain ⟨ec, dg, oi, ng⟩ := f
  cases ec <;> cases dg <;> rfl

theorem readBackRecord_encode (r : SessionRecord) :
    readBackRecord (encodeRecord r) = some r := by
  obtain ⟨n, g, md, fb⟩ := r
  cases fb with
  | none => rfl
  | some f =>
    show (readBackFeedback (encodeFeedback f)).map (fun fb2 =>
        ({ sessionNumber := n, generatedAt := g, planMd := md, feedback := some fb2 } : SessionRecord))
        = some ({ sessionNumber := n, generatedAt := g, planMd := md, feedback := some f } : SessionRecord)
    rw [readBackFeedback_encode]
    rfl

theorem readBackRecords_encode : ∀ l : List SessionRecord,
    readBackRecords (l.map encodeRecord) = some l
  | [] => rfl
  | r :: t => by
    show (readBackRecord (encodeRecord r)).bind
        (fun r2 => (readBackRecords (t.map encodeRecord)).map (fun l2 => r2 :: l2))
        = some (r :: t)
    rw [readBackRecord_encode, readBackRecords_encode t]
    rfl

theorem readBackRun_encode (r : ClassRun) : readBackRun (encodeRun r) = some r := by
  obtain ⟨i, prof, sess⟩ := r
  cases prof with
  | none =>
    show (readBackRecords (sess.map encodeRecord)).map (fun sessions =>
        ({ id := i, profile := none, sessions := sessions } : ClassRun))
        = some ({ id := i, profile := none, sessions := sess } : ClassRun)
    rw [readBackRecords_encode]
    rfl
  | some p =>
    show (readBackProfile (encodeProfile p)).bind (fun p2 =>
        (readBackRecords (sess.map encodeRecord)).map (fun sessions =>
          ({ id := i, profile := some p2, sessions := sessions } : ClassRun)))
        = some ({ id := i, profile := some p, sessions := sess } : ClassRun)
    rw [readBackProfile_encode, readBackRecords_encode]
    rfl

theorem readBackRunList_encode : ∀ l : List ClassRun,
    readBackRunList (l.map encodeRun) = some l
  | [] => rfl
  | r :: t => by
    show (readBackRun (encodeRun r)).bind
        (fun r2 => (readBackRunList (t.map encodeRun)).map (fun l2 => r2 :: l2))
        = some (r :: t)
    rw [readBackRun_encode, readBackRunList_encode t]
    rfl

theorem readBackRuns_encode (runs : List ClassRun) :
    readBackRuns (encodeRuns runs) = some runs := readBackRunList_encode runs

/-- C5, counterexample: the claim says every stored value that is not a
well-formed serialization of a run list loads as the empty list, but
`loadRuns` performs no schema validation: the stored text `"5"` parses to the
truthy JSON number 5 and is returned as-is, not as the empty array. -/
theorem claim5Counterexample :
    loadRuns (some "5") = Json.num ⟨5, 0⟩ ∧ Json.num ⟨5, 0⟩ ≠ Json.arr [] :=
  ⟨rfl, fun h => Json.noConfusion h⟩

/-- C5 (amended): absent store content loads as the empty array (the missing
key is substituted by `"[]"`), and so does any stored text the parser rejects
or parses to a JS-falsy value (such as JSON `null`); this is the extent of
the degradation the code guarantees, since any truthy parsed value —
array-shaped or not — is returned unvalidated. -/
theorem claim5Degrade :
    loadRuns none = Json.arr [] ∧
    (∀ s : String, jsonParse s = none → loadRuns (some s) = Json.arr []) ∧
    (∀ (s : String) (j : Json), jsonParse s = some j → jsTruthy j = false →
      loadRuns (some s) = Json.arr []) := by
  refine ⟨rfl, ?_, ?_⟩
  · intro s hp
    unfold loadRuns
    rw [show (some s).getD "[]" = s from rfl, hp]
  · intro s j hp ht
    unfold loadRuns
    rw [show (some s).getD "[]" = s from rfl, hp]
    simp [ht]

/-- Witness for `claim5Degrade` at the unparseable stored text `"nope"` and
the falsy-parsing stored text `"null"`. -/
theorem claim5DegradeWitness :
    (jsonParse "nope" = none ∧ loadRuns (some "nope") = Json.arr []) ∧
    (jsonParse "null" = some Json.null ∧ jsTruthy Json.null = false ∧
      loadRuns (some "null") = Json.arr []) :=
  ⟨⟨rfl, claim5Degrade.2.1 "nope" rfl⟩,
   ⟨rfl, rfl, claim5Degrade.2.2 "null" Json.null rfl rfl⟩⟩

/-- C7: saving any list of runs with `saveRuns` and loading the store back
with `loadRuns` returns exactly the serialized value, and reading that value
back field-for-field recovers the original list of runs — load after save is
the identity. -/
theorem claim7RoundTrip (runs : List ClassRun) :
    loadRuns (some (saveRuns runs)) = encodeRuns runs ∧
    readBackRuns (loadRuns (some (saveRuns runs))) = some runs := by
  have h1 : loadRuns (some (saveRuns runs)) = encodeRuns runs := by
    unfold loadRuns
    rw [show (some (saveRuns runs)).getD "[]" = saveRuns runs from rfl,
      show saveRuns runs = jsonStringify (encodeRuns runs) from rfl,
      jsonParse_stringify]
    rfl
  exact ⟨h1, by rw [h1]; exact readBackRuns_encode runs⟩
